import Mathlib

/-!
Verification of the event-ingestion and commitment-lifecycle core of the
parket-integrations repository, as a shallow embedding in Lean 4.

Conventions used throughout:
* Timestamps are natural numbers counting milliseconds (the code works with
  `Date.getTime()` values).  Database `NULL` is `Option.none`, row ids
  (UUIDs in the database) are natural numbers.
* Database tables are lists of row structures inside one `St` state record;
  a SQL `UPDATE ... WHERE id = x` becomes a `List.map` touching the rows
  whose id matches, and a `SELECT` becomes a `filterMap` (inner joins look
  the joined row up with `find?`).
* Outbound network calls (WhatsApp group / text messages, Slack alerts, the
  Pipedrive sync) are modelled as `Action` values appended to an output
  list; an `Env` record says which kind of call succeeds and which
  environment variables (notification group ids) are configured, mirroring
  the `try`/`catch` structure of the services.
* JavaScript truthiness on nullable columns (`!existing.email`,
  `if (input.estimated_ticket)`) is embedded by `strTruthy` / `natTruthy`:
  a string is truthy iff it is present and non-empty, a number iff it is
  present and non-zero.
-/

namespace Parket

/-- JS truthiness of a nullable string column: `undefined`/`null` and the
empty string are falsy. -/
def strTruthy : Option String → Bool
  | none => false
  | some s => s != ""

/-- JS truthiness of a nullable numeric column: `undefined`/`null` and `0`
are falsy. -/
def natTruthy : Option Nat → Bool
  | none => false
  | some n => n != 0

/-- Embedding of `normalizePhone` from `src/connectors/whatsapp/client.ts`:
strip non-digits, prepend the country code to 10/11-digit local numbers,
and insert the mobile ninth digit into a 12-digit `55`-prefixed number whose
local part has 8 digits not starting with `0`. -/
def normalizePhone (phone : String) : String :=
  let digits := phone.data.filter Char.isDigit
  let digits :=
    if digits.length = 10 ∨ digits.length = 11 then '5' :: '5' :: digits else digits
  let digits :=
    if digits.length = 12 ∧ digits.take 2 = ['5', '5'] then
      let ddd := (digits.drop 2).take 2
      let number := digits.drop 4
      if number.length = 8 ∧ number.head? ≠ some '0' then
        '5' :: '5' :: (ddd ++ '9' :: number)
      else digits
    else digits
  String.mk digits

/-- Raw lead input of `ingestLead` (`src/services/lead-ingestion.ts`).
Optional fields default to `none` exactly where the TypeScript interface
marks them optional. -/
structure RawLeadInput where
  name : String
  email : Option String := none
  phone : String
  source : String
  client_type : Option String := none
  project_type : Option String := none
  project_stage : Option String := none
  location : Option String := none
  estimated_deadline : Option String := none
  estimated_ticket : Option Nat := none
  utm_source : Option String := none
  utm_medium : Option String := none
  utm_campaign : Option String := none
  utm_content : Option String := none
  external_id : Option String := none
  deriving DecidableEq

/-- Source-quality lookup table of `scoreLead`
(`src/services/lead-scoring.ts`), default weight 5. -/
def sourceScore (source : String) : Nat :=
  if source = "architect" then 25
  else if source = "referral" then 20
  else if source = "website" then 15
  else if source = "instagram" then 12
  else if source = "meta_ads" then 10
  else if source = "google_ads" then 10
  else if source = "whatsapp" then 8
  else 5

/-- Number of filled fields among the seven completeness fields of
`scoreLead` (`fields.filter(Boolean).length`). -/
def filledCount (input : RawLeadInput) : Nat :=
  (if strTruthy input.email then 1 else 0)
    + (if strTruthy input.client_type then 1 else 0)
    + (if strTruthy input.project_type then 1 else 0)
    + (if strTruthy input.project_stage then 1 else 0)
    + (if strTruthy input.location then 1 else 0)
    + (if strTruthy input.estimated_deadline then 1 else 0)
    + (if natTruthy input.estimated_ticket then 1 else 0)

/-- Data-completeness term `Math.round((filled / 7) * 15)` of `scoreLead`.
For `filled ∈ [0,7]` the JS double computation rounds exactly like the
rational `15 * filled / 7`, and round-half-up of `p/q` is `(2p+q)/(2q)`
with truncating division, hence `(30 * filled + 7) / 14`.  (The value
`15*filled/7` is never exactly half-integral, so the tie direction of
`Math.round` is irrelevant.) -/
def completenessScore (input : RawLeadInput) : Nat :=
  (30 * filledCount input + 7) / 14

/-- Embedding of `scoreLead` (`src/services/lead-scoring.ts`): source
quality + client type + project stage + estimated-ticket bracket + data
completeness, clamped to 100. -/
def scoreLead (input : RawLeadInput) : Nat :=
  let s1 := sourceScore input.source
  let s2 :=
    if input.client_type = some "architect" then 20
    else if input.client_type = some "developer" then 15
    else if input.client_type = some "end_client" then 10
    else 0
  let s3 :=
    if input.project_stage = some "acabamentos" then 20
    else if input.project_stage = some "obra_iniciada" then 12
    else if input.project_stage = some "planta" then 5
    else 0
  let s4 :=
    match input.estimated_ticket with
    | none => 0
    | some t =>
        if t = 0 then 0
        else if 100000 ≤ t then 20
        else if 50000 ≤ t then 15
        else if 20000 ≤ t then 10
        else 5
  min (s1 + s2 + s3 + s4 + completenessScore input) 100

/-- Funnel inference of `inferFunnel` (`src/services/lead-ingestion.ts`). -/
def inferFunnel : Option String → String
  | some "architect" => "architects"
  | some "developer" => "developers"
  | some "contractor" => "developers"
  | _ => "end_client"

/-- A row of the `leads` table (columns read or written by the claims;
`qualified_at`, `closed_at` and the audit timestamps are never read by the
verified operations and are omitted). -/
structure LeadRow where
  id : Nat
  external_id : Option String
  source : String
  funnel : String
  stage : String
  name : String
  email : Option String
  phone : String
  phone_normalized : String
  client_type : Option String
  project_type : Option String
  project_stage : Option String
  location : Option String
  estimated_deadline : Option String
  estimated_ticket : Option Nat
  score : Nat
  utm_source : Option String
  utm_medium : Option String
  utm_campaign : Option String
  utm_content : Option String
  pipedrive_deal_id : Option Nat
  pipedrive_person_id : Option Nat
  deriving DecidableEq

/-- The field-merge computation of `mergeLead`
(`src/services/lead-ingestion.ts`): each candidate field is copied from the
input exactly when the stored value is falsy (`!existing.x`) and the
incoming value is truthy (`input.x`); every other column of the row is left
unchanged.  (`updated_at` and the audit activity row are handled by the
ingestion state model.) -/
def mergeLead (existing : LeadRow) (input : RawLeadInput) : LeadRow :=
  { existing with
    email :=
      if !strTruthy existing.email && strTruthy input.email then input.email
      else existing.email
    client_type :=
      if !strTruthy existing.client_type && strTruthy input.client_type then input.client_type
      else existing.client_type
    project_type :=
      if !strTruthy existing.project_type && strTruthy input.project_type then input.project_type
      else existing.project_type
    project_stage :=
      if !strTruthy existing.project_stage && strTruthy input.project_stage then input.project_stage
      else existing.project_stage
    location :=
      if !strTruthy existing.location && strTruthy input.location then input.location
      else existing.location
    estimated_ticket :=
      if !natTruthy existing.estimated_ticket && natTruthy input.estimated_ticket then
        input.estimated_ticket
      else existing.estimated_ticket }

/-- A row of the `webhook_logs` table (the InboundEvent store used by the
idempotency guard); the opaque payload blob is never read back and is
omitted. -/
structure WebhookLog where
  source : String
  event_type : String
  idempotency_key : String
  status : String
  error : Option String
  deriving DecidableEq

/-- A row of the `activities` audit table.  Only the columns the verified
operations read back are kept: the owning lead, the activity type, and the
`sla_id` field of the JSON metadata (the escalation chain's per-level dedup
key; `none` for activities whose metadata carries no `sla_id`). -/
structure ActivityRow where
  lead_id : Nat
  type : String
  sla_id : Option Nat
  deriving DecidableEq

/-- A row of the `sla_events` table (CommitmentEvent).  `breached` and
`notified` have database default `FALSE`. -/
structure SlaRow where
  id : Nat
  lead_id : Nat
  sla_type : String
  started_at : Nat
  deadline_at : Nat
  completed_at : Option Nat
  breached : Bool
  notified : Bool
  deriving DecidableEq

/-- A row of the `follow_up_steps` template table. -/
structure StepRow where
  sequence_id : Nat
  step_order : Nat
  delay_minutes : Nat
  channel : String
  template : String
  deriving DecidableEq

/-- A row of the `follow_up_executions` table (SequenceExecution). -/
structure FupExec where
  id : Nat
  lead_id : Nat
  sequence_id : Nat
  current_step : Nat
  status : String
  next_run_at : Option Nat
  completed_at : Option Nat
  deriving DecidableEq

/-- The shared relational store.  `next_id` models the id generator for
inserted rows (UUIDs in the database). -/
structure St where
  webhook_logs : List WebhookLog := []
  leads : List LeadRow := []
  activities : List ActivityRow := []
  sla_events : List SlaRow := []
  follow_up_steps : List StepRow := []
  follow_up_executions : List FupExec := []
  next_id : Nat := 0
  deriving DecidableEq

/-- One attempted outbound call (WhatsApp / Slack / Pipedrive), tagged with
the row that triggered it.  An `Action` is recorded whenever the code
reaches the corresponding network call, whether or not the call succeeds. -/
inductive Action where
  | pipedriveSync (leadId : Nat)
  | waGroupNewLead (leadId : Nat)
  | waGroupBreach (slaId : Nat)
  | slackWarn (slaId : Nat)
  | slackCritical (slaId : Nat)
  | waGroupCritical (slaId : Nat)
  | waText (phone : String)
  deriving DecidableEq

/-- External environment: which environment variables are configured and
which kind of outbound call succeeds (a `false` flag makes the call throw,
exercising the `catch` branches). -/
structure Env where
  storageOk : Bool := true
  sdrGroup : Option String := none
  opsGroup : Option String := none
  waSendOk : Bool := true
  waTextOk : Bool := true
  slackOk : Bool := true
  pipedriveOk : Bool := true
  deriving DecidableEq

/-- Database errors surfaced to callers: the Postgres unique-constraint
violation (code 23505) and any other storage failure. -/
inductive DbErr where
  | uniqueViolation
  | storage
  deriving DecidableEq

/-- Decidable equality for `Except` results (not derived by core). -/
instance {ε α : Type} [DecidableEq ε] [DecidableEq α] : DecidableEq (Except ε α) := fun a b =>
  match a, b with
  | .ok x, .ok y => decidable_of_iff (x = y) ⟨fun h => by rw [h], fun h => by injection h⟩
  | .error x, .error y => decidable_of_iff (x = y) ⟨fun h => by rw [h], fun h => by injection h⟩
  | .ok _, .error _ => isFalse fun h => by injection h
  | .error _, .ok _ => isFalse fun h => by injection h

/-- The `INSERT INTO webhook_logs` with the unique constraint on
`idempotency_key`: a second row with the same key raises the uniqueness
violation; `storageOk = false` models any other storage failure. -/
def insertWebhookLog (env : Env) (st : St) (row : WebhookLog) : Except DbErr St :=
  if env.storageOk = false then .error .storage
  else if st.webhook_logs.any (fun w => w.idempotency_key == row.idempotency_key) then
    .error .uniqueViolation
  else .ok { st with webhook_logs := st.webhook_logs ++ [row] }

/-- Embedding of `isNewWebhookEvent` (`src/services/webhook-guard.ts`):
insert a `received` row; catch exactly the uniqueness violation as
"duplicate" (returning the state unchanged and `false`); propagate any
other error. -/
def isNewWebhookEvent (env : Env) (st : St) (source eventType idempotencyKey : String) :
    Except DbErr (St × Bool) :=
  match insertWebhookLog env st ⟨source, eventType, idempotencyKey, "received", none⟩ with
  | .ok st1 => .ok (st1, true)
  | .error .uniqueViolation => .ok (st, false)
  | .error e => .error e

/-- Embedding of `markWebhookStatus` (`src/services/webhook-guard.ts`). -/
def markWebhookStatus (st : St) (idempotencyKey status : String) (error : Option String) : St :=
  { st with webhook_logs := st.webhook_logs.map fun w =>
      if w.idempotency_key = idempotencyKey then { w with status := status, error := error } else w }

/-- The `SLA_DURATIONS` table of `src/services/sla-monitor.ts` (the catch-all
branch is unreachable for the five valid `sla_type` values). -/
def SLA_DURATIONS : String → Nat
  | "response_5min" => 5 * 60 * 1000
  | "qualification_15min" => 15 * 60 * 1000
  | "meeting_48h" => 48 * 60 * 60 * 1000
  | "proposal_72h" => 72 * 60 * 60 * 1000
  | "handoff_24h" => 24 * 60 * 60 * 1000
  | _ => 0

/-- Embedding of `startSla` (`src/services/sla-monitor.ts`): insert an open
CommitmentEvent with deadline `now + SLA_DURATIONS[type]`. -/
def startSla (now : Nat) (st : St) (leadId : Nat) (slaType : String) : St :=
  { st with
    sla_events := st.sla_events ++
      [{ id := st.next_id, lead_id := leadId, sla_type := slaType, started_at := now,
         deadline_at := now + SLA_DURATIONS slaType, completed_at := none,
         breached := false, notified := false }]
    next_id := st.next_id + 1 }

/-- Embedding of `notifyNewLead` (`src/connectors/whatsapp/client.ts`): a
group message to the SDR group when `WHATSAPP_SDR_GROUP` is configured,
nothing otherwise. -/
def notifyNewLead (env : Env) (leadId : Nat) : List Action :=
  match env.sdrGroup with
  | none => []
  | some _ => [.waGroupNewLead leadId]

/-- Embedding of `syncToPipedrive` (`src/services/lead-ingestion.ts`): the
find-person / create-person / create-deal calls against the external CRM
are collapsed into one best-effort action (the CRM is an excluded
collaborator); on success the lead row receives the external ids (modelled
as `1`). -/
def syncToPipedrive (env : Env) (st : St) (leadId : Nat) : St × List Action :=
  (if env.pipedriveOk then
     { st with leads := st.leads.map fun l =>
         if l.id = leadId then
           { l with pipedrive_person_id := some 1, pipedrive_deal_id := some 1 }
         else l }
   else st,
   [.pipedriveSync leadId])

/-- State effect of the duplicate-merge branch of `ingestLead`: apply the
computed merge to the selected row (`phone_normalized` is unique, so the
row matched by id is the selected `existing`) and append the audit
activity. -/
def mergeLeadOp (st : St) (existing : LeadRow) (input : RawLeadInput) : St :=
  { st with
    leads := st.leads.map fun l => if l.id = existing.id then mergeLead existing input else l
    activities := st.activities ++ [⟨existing.id, "note", none⟩] }

/-- The lead row inserted by `ingestLead` for a new phone. -/
def newLeadRow (st : St) (input : RawLeadInput) (phoneNormalized : String) : LeadRow :=
  { id := st.next_id
    external_id := input.external_id
    source := input.source
    funnel := inferFunnel input.client_type
    stage := "triagem"
    name := input.name
    email := input.email
    phone := input.phone
    phone_normalized := phoneNormalized
    client_type := input.client_type
    project_type := input.project_type
    project_stage := input.project_stage
    location := input.location
    estimated_deadline := input.estimated_deadline
    estimated_ticket := input.estimated_ticket
    score := scoreLead input
    utm_source := input.utm_source
    utm_medium := input.utm_medium
    utm_campaign := input.utm_campaign
    utm_content := input.utm_content
    pipedrive_deal_id := none
    pipedrive_person_id := none }

/-- Embedding of `ingestLead` (`src/services/lead-ingestion.ts`): normalize,
dedup by normalized phone (merge on hit), otherwise insert the scored lead,
log the intake activity, then run the three best-effort steps (Pipedrive
sync, `response_5min` SLA start, SDR notification); their failures are
caught and do not affect the returned result.  Returns (state, isNew,
attempted outbound actions). -/
def ingestLead (env : Env) (now : Nat) (st : St) (input : RawLeadInput) :
    St × Bool × List Action :=
  let phoneNormalized := normalizePhone input.phone
  match st.leads.find? (fun l => l.phone_normalized == phoneNormalized) with
  | some existing => (mergeLeadOp st existing input, false, [])
  | none =>
      let lead := newLeadRow st input phoneNormalized
      let st1 := { st with leads := st.leads ++ [lead], next_id := st.next_id + 1 }
      let st2 := { st1 with activities := st1.activities ++ [⟨lead.id, "sla_start", none⟩] }
      let p := syncToPipedrive env st2 lead.id
      let st3 := startSla now p.1 lead.id "response_5min"
      (st3, true, p.2 ++ notifyNewLead env lead.id)

/-- The per-leadgen-change body of the Meta webhook route
(`src/api/webhooks/meta.ts`): guard on `meta_<leadgenId>`, `continue` when
the guard reports a duplicate, otherwise ingest the fetched lead fields
(`fetchLeadData`/`extractLeadFields` are external; `fetched` is their
result) and mark the event processed. -/
def processMetaLeadgen (env : Env) (now : Nat) (st : St) (leadgenId : String)
    (fetched : RawLeadInput) : Except DbErr (St × List Action) :=
  let key := "meta_" ++ leadgenId
  match isNewWebhookEvent env st "meta_ads" "leadgen" key with
  | .error e => .error e
  | .ok (st1, false) => .ok (st1, [])
  | .ok (st1, true) =>
      let r := ingestLead env now st1 fetched
      .ok (markWebhookStatus r.1 key "processed" none, r.2.2)

/-- The joined row selected by `checkSlaBreaches`. -/
structure BreachView where
  id : Nat
  lead_id : Nat
  sla_type : String
  deadline_at : Nat
  notified : Bool
  lead_name : String
  lead_phone : String
  deriving DecidableEq

/-- The breach-poll `SELECT` of `checkSlaBreaches`
(`src/services/sla-monitor.ts`): open (`completed_at IS NULL`), unbreached
rows past deadline, inner-joined with `leads`. -/
def slaBreachSelect (now : Nat) (st : St) : List BreachView :=
  st.sla_events.filterMap fun e =>
    if e.completed_at = none ∧ e.breached = false ∧ e.deadline_at < now then
      (st.leads.find? (fun l => l.id == e.lead_id)).map fun l =>
        ⟨e.id, e.lead_id, e.sla_type, e.deadline_at, e.notified, l.name, l.phone⟩
    else none

/-- `UPDATE sla_events SET breached = true WHERE id = ...`. -/
def setBreached (id : Nat) (evs : List SlaRow) : List SlaRow :=
  evs.map fun e => if e.id = id then { e with breached := true } else e

/-- `UPDATE sla_events SET notified = true WHERE id = ...`. -/
def setNotified (id : Nat) (evs : List SlaRow) : List SlaRow :=
  evs.map fun e => if e.id = id then { e with notified := true } else e

/-- Loop body of `checkSlaBreaches` for one selected row: mark breached
(keyed on the id only), log the breach activity, then — if the selected
snapshot said `notified = false` — send the group message when the SDR
group is configured and set `notified = true`; a send failure is caught and
skips the `notified` update; with no group configured no send is attempted
but `notified` is still set (the update sits outside the `if (groupId)`). -/
def slaBreachStep (env : Env) (acc : St × List Action) (s : BreachView) : St × List Action :=
  let st := acc.1
  let st1 := { st with sla_events := setBreached s.id st.sla_events
                       activities := st.activities ++ [⟨s.lead_id, "sla_breach", none⟩] }
  if s.notified then (st1, acc.2)
  else
    match env.sdrGroup with
    | some _ =>
        let out := acc.2 ++ [Action.waGroupBreach s.id]
        if env.waSendOk then
          ({ st1 with sla_events := setNotified s.id st1.sla_events }, out)
        else (st1, out)
    | none => ({ st1 with sla_events := setNotified s.id st1.sla_events }, acc.2)

/-- Embedding of `checkSlaBreaches` (`src/services/sla-monitor.ts`):
select, then process each selected row in order.  Returns (state, attempted
sends, count of rows breached this cycle). -/
def checkSlaBreaches (env : Env) (now : Nat) (st : St) : St × List Action × Nat :=
  let snap := slaBreachSelect now st
  let r := snap.foldl (slaBreachStep env) (st, [])
  (r.1, r.2, snap.length)

/-- Fold `checkSlaBreaches` over a list of poll-cycle clock values. -/
def checkRuns (env : Env) : List Nat → St → St
  | [], st => st
  | t :: ts, st => checkRuns env ts (checkSlaBreaches env t st).1

/-- How many of the given sequential poll cycles select (and therefore mark
breached) the row with the given id. -/
def timesSelected (env : Env) : List Nat → St → Nat → Nat
  | [], _, _ => 0
  | t :: ts, st, rid =>
      (if rid ∈ (slaBreachSelect t st).map (·.id) then 1 else 0)
        + timesSelected env ts (checkSlaBreaches env t st).1 rid

/-- Total breach-notification send attempts for the row with the given id
across a list of sequential poll cycles. -/
def breachAttemptsFor (env : Env) : List Nat → St → Nat → Nat
  | [], _, _ => 0
  | t :: ts, st, rid =>
      ((checkSlaBreaches env t st).2.1.filter fun a => decide (a = Action.waGroupBreach rid)).length
        + breachAttemptsFor env ts (checkSlaBreaches env t st).1 rid

/-- Two overlapping cycles of `checkSlaBreaches`: both cycles run their
`SELECT` before either processes its batch (the race the spec claims is
structurally prevented), then each processes its own snapshot against the
shared store in turn. -/
def overlappedBreachCycles (env : Env) (now : Nat) (st : St) : St × List Action :=
  let snapA := slaBreachSelect now st
  let snapB := slaBreachSelect now st
  let ra := snapA.foldl (slaBreachStep env) (st, [])
  let rb := snapB.foldl (slaBreachStep env) (ra.1, [])
  (rb.1, ra.2 ++ rb.2)

/-- The joined row selected by `runEscalationCheck`. -/
structure EscView where
  sla_id : Nat
  lead_id : Nat
  sla_type : String
  deadline_at : Nat
  notified : Bool
  lead_name : String
  lead_phone : String
  estimated_ticket : Option Nat
  deriving DecidableEq

/-- The escalation `SELECT` (`src/services/escalation.ts`): breached,
uncompleted rows inner-joined with `leads`. -/
def escalationSelect (st : St) : List EscView :=
  st.sla_events.filterMap fun e =>
    if e.breached = true ∧ e.completed_at = none then
      (st.leads.find? (fun l => l.id == e.lead_id)).map fun l =>
        ⟨e.id, e.lead_id, e.sla_type, e.deadline_at, e.notified, l.name, l.phone,
  l.estimated_ticket⟩
    else none

/-- The per-SLA escalation-record query: activities of the lead whose type
is one of the two escalation types and whose metadata carries this
`sla_id`. -/
def escalationRecordsFor (st : St) (s : EscView) : List ActivityRow :=
  st.activities.filter fun a =>
    decide (a.lead_id = s.lead_id ∧ (a.type = "escalation_slack" ∨ a.type = "escalation_critical")
      ∧ a.sla_id = some s.sla_id)

/-- Critical-level half of the escalation `try` block: at 30 minutes since
breach, if no critical record exists, send the critical Slack alert, then
the ops-group WhatsApp message when configured, and only then write the
EscalationRecord; a failed send aborts before the record is written. -/
def escCritical (env : Env) (acc : St × List Action × Nat) (s : EscView)
    (hasCritical : Bool) (minutes : Nat) : St × List Action × Nat :=
  let st := acc.1
  let out := acc.2.1
  let cnt := acc.2.2
  if 30 ≤ minutes ∧ hasCritical = false then
    let out1 := out ++ [Action.slackCritical s.sla_id]
    if env.slackOk then
      let out2 := out1 ++ (match env.opsGroup with
        | some _ => [Action.waGroupCritical s.sla_id]
        | none => [])
      if (match env.opsGroup with | some _ => env.waSendOk | none => true) then
        ({ st with activities := st.activities ++ [⟨s.lead_id, "escalation_critical", some s.sla_id⟩] },
         out2, cnt + 1)
      else (st, out2, cnt)
    else (st, out1, cnt)
  else (st, out, cnt)

/-- Loop body of `runEscalationCheck` for one selected row: compute minutes
since breach (integer division of the elapsed time; for a deadline in the
future the JS value is negative and ours is 0 — both fail the 15/30-minute
thresholds identically), read the existing per-level records, then run the
warning level and the critical level inside one `try` whose `catch` only
logs (a failed warning send therefore also skips the critical level this
cycle). -/
def escStep (env : Env) (now : Nat) (acc : St × List Action × Nat) (s : EscView) :
    St × List Action × Nat :=
  let st := acc.1
  let out := acc.2.1
  let cnt := acc.2.2
  let minutes := (now - s.deadline_at) / 60000
  let recs := escalationRecordsFor st s
  let hasSlack := recs.any fun a => a.type == "escalation_slack"
  let hasCritical := recs.any fun a => a.type == "escalation_critical"
  if 15 ≤ minutes ∧ hasSlack = false then
    let out1 := out ++ [Action.slackWarn s.sla_id]
    if env.slackOk then
      let st1 := { st with activities := st.activities ++ [⟨s.lead_id, "escalation_slack", some s.sla_id⟩] }
      escCritical env (st1, out1, cnt + 1) s hasCritical minutes
    else (st, out1, cnt)
  else
    escCritical env (st, out, cnt) s hasCritical minutes

/-- Embedding of `runEscalationCheck` (`src/services/escalation.ts`). -/
def runEscalationCheck (env : Env) (now : Nat) (st : St) : St × List Action × Nat :=
  (escalationSelect st).foldl (escStep env now) (st, [], 0)

/-- One combined poll cycle: `checkSlaBreaches` followed by
`runEscalationCheck` at the same clock value. -/
def slaCycle (env : Env) (now : Nat) (st : St) : St × List Action :=
  let b := checkSlaBreaches env now st
  let e := runEscalationCheck env now b.1
  (e.1, b.2.1 ++ e.2.1)

/-- Iterate combined breach + escalation cycles over a list of clock
values, collecting every attempted outbound call. -/
def slaCycles (env : Env) : List Nat → St → St × List Action
  | [], st => (st, [])
  | t :: ts, st =>
      let c := slaCycle env t st
      let r := slaCycles env ts c.1
      (r.1, c.2 ++ r.2)

/-- Count the occurrences of one concrete action in an output list. -/
def countAction (a : Action) (l : List Action) : Nat :=
  (l.filter fun x => decide (x = a)).length

/-- Due-ness test of the follow-up `SELECT`: active and `next_run_at`
passed. -/
def fupDue (now : Nat) (e : FupExec) : Bool :=
  decide (e.status = "active") &&
    (match e.next_run_at with
     | some t => decide (t ≤ now)
     | none => false)

/-- The joined row selected by `processDueFollowUps`. -/
structure FupView where
  execution_id : Nat
  sequence_id : Nat
  current_step : Nat
  lead_id : Nat
  name : String
  phone_normalized : String
  location : Option String
  project_type : Option String
  funnel : String
  deriving DecidableEq

/-- The follow-up `SELECT` (`src/services/follow-up-sequences.ts`): due
active executions inner-joined with `leads`. -/
def fupSelect (now : Nat) (st : St) : List FupView :=
  st.follow_up_executions.filterMap fun e =>
    if fupDue now e then
      (st.leads.find? (fun l => l.id == e.lead_id)).map fun l =>
        ⟨e.id, e.sequence_id, e.current_step, e.lead_id, l.name, l.phone_normalized,
  l.location, l.project_type, l.funnel⟩
    else none

/-- `SELECT FROM follow_up_steps WHERE sequence_id = ... AND step_order = ...`. -/
def findStep (st : St) (sid ord : Nat) : Option StepRow :=
  st.follow_up_steps.find? fun s => decide (s.sequence_id = sid ∧ s.step_order = ord)

/-- Handlebars rendering is external library code and the claims never
inspect the message text, so the rendered message is modelled as the raw
template. -/
def renderTemplate (template : String) (_v : FupView) : String :=
  template

/-- `UPDATE follow_up_executions ... WHERE id = ...`. -/
def updateExec (id : Nat) (f : FupExec → FupExec) (l : List FupExec) : List FupExec :=
  l.map fun e => if e.id = id then f e else e

/-- Loop body of `processDueFollowUps` for one due execution: load step
`current_step + 1`; absent → mark completed (without advancing
`current_step`); otherwise render and dispatch (a dispatch failure is
caught per-execution, leaving the row unadvanced for retry), log the
activity, then advance-and-reschedule if a further step exists or mark
completed immediately if this was the last step. -/
def fupStep (env : Env) (now : Nat) (acc : St × List Action × Nat) (v : FupView) :
    St × List Action × Nat :=
  let st := acc.1
  let out := acc.2.1
  let cnt := acc.2.2
  let nextOrd := v.current_step + 1
  match findStep st v.sequence_id nextOrd with
  | none =>
      let execs := updateExec v.execution_id
        (fun e => { e with status := "completed", completed_at := some now })
        st.follow_up_executions
      ({ st with follow_up_executions := execs }, out, cnt)
  | some step =>
      let out1 := out ++ (if step.channel = "whatsapp" then [Action.waText v.phone_normalized] else [])
      if step.channel = "whatsapp" ∧ env.waTextOk = false then
        (st, out1, cnt)
      else
        let st1 := { st with activities := st.activities ++ [⟨v.lead_id, "follow_up", none⟩] }
        match findStep st1 v.sequence_id (nextOrd + 1) with
        | some nxt =>
            let execs := updateExec v.execution_id
              (fun e => { e with current_step := nextOrd,
                                 next_run_at := some (now + nxt.delay_minutes * 60000) })
              st1.follow_up_executions
            ({ st1 with follow_up_executions := execs }, out1, cnt + 1)
        | none =>
            let execs := updateExec v.execution_id
              (fun e => { e with current_step := nextOrd, status := "completed",
                                 completed_at := some now, next_run_at := none })
              st1.follow_up_executions
            ({ st1 with follow_up_executions := execs }, out1, cnt + 1)

/-- Embedding of `processDueFollowUps`
(`src/services/follow-up-sequences.ts`). -/
def processDueFollowUps (env : Env) (now : Nat) (st : St) : St × List Action × Nat :=
  (fupSelect now st).foldl (fupStep env now) (st, [], 0)

/-- Iterate `processDueFollowUps` over a list of poll-cycle clock values,
collecting the attempted dispatches. -/
def runFupCycles (env : Env) : List Nat → St → St × List Action
  | [], st => (st, [])
  | t :: ts, st =>
      let c := processDueFollowUps env t st
      let r := runFupCycles env ts c.1
      (r.1, c.2.1 ++ r.2)

/-- Delay/template of one sequence step (the reference sequences use the
WhatsApp channel throughout). -/
structure StepSpec where
  delay : Nat
  template : String
  deriving DecidableEq

/-- Build the `follow_up_steps` rows of a sequence: consecutive
`step_order` values starting at the given index, channel `whatsapp`. -/
def mkSteps (sid : Nat) : Nat → List StepSpec → List StepRow
  | _, [] => []
  | ord, s :: rest => ⟨sid, ord, s.delay, "whatsapp", s.template⟩ :: mkSteps sid (ord + 1) rest

/-- The poll-cycle clock values that run a sequence exactly when each step
falls due: the first cycle at the execution's scheduled time, each later
cycle at the previous cycle's clock plus the next step's delay. -/
def dueTimes : Nat → List StepSpec → List Nat
  | _, [] => []
  | due, [_] => [due]
  | due, _ :: s2 :: rest => due :: dueTimes (due + s2.delay * 60000) (s2 :: rest)

/-- `true` exactly for the intake pipeline's outbound team notification
(the SDR group message of `notifyNewLead`). -/
def isOutboundNotification : Action → Bool
  | .waGroupNewLead _ => true
  | _ => false

/-- All ids of a `sla_events` table are distinct (the primary-key
invariant). -/
def distinctIds (l : List SlaRow) : Prop :=
  l.Pairwise fun a b => a.id ≠ b.id

/-- A lead row with every optional column null (fixture builder). -/
def mkLead (id : Nat) (phoneN : String) : LeadRow :=
  { id := id, external_id := none, source := "website", funnel := "end_client",
    stage := "triagem", name := "Lead", email := none, phone := phoneN,
    phone_normalized := phoneN, client_type := none, project_type := none,
    project_stage := none, location := none, estimated_deadline := none,
    estimated_ticket := none, score := 0, utm_source := none, utm_medium := none,
    utm_campaign := none, utm_content := none, pipedrive_deal_id := none,
    pipedrive_person_id := none }

/-- The row-level effect of one selected snapshot entry on a `sla_events`
row: the composition of the loop body's two id-keyed UPDATEs.  `breached`
is set whenever the id matches; `notified` is set when the snapshot said
not-yet-notified and the code reaches the notified-update (no group
configured, or group configured and the send succeeding). -/
def breachRowUpd (env : Env) (s : BreachView) (e : SlaRow) : SlaRow :=
  if e.id = s.id then
    if s.notified then { e with breached := true }
    else
      match env.sdrGroup with
      | some _ =>
          if env.waSendOk then { e with breached := true, notified := true }
          else { e with breached := true }
      | none => { e with breached := true, notified := true }
  else e

/-- Row-level effect of processing a whole snapshot in order. -/
def breachRowsUpd (env : Env) (snap : List BreachView) (e : SlaRow) : SlaRow :=
  snap.foldl (fun acc s => breachRowUpd env s acc) e

/-- The send attempts of the loop body for one selected snapshot entry. -/
def breachEmit (env : Env) (s : BreachView) : List Action :=
  if s.notified then []
  else
    match env.sdrGroup with
    | some _ => [Action.waGroupBreach s.id]
    | none => []

/-- Convenience builder: the given store with its `sla_events` replaced by
one row and its `activities` replaced wholesale. -/
def slaSingleSt (st : St) (ev : SlaRow) (acts : List ActivityRow) : St :=
  { st with sla_events := [ev], activities := acts }

/-- Truthiness-aware merge contract for one nullable string column: a
truthy stored value is never overwritten, a falsy stored value is filled
from a truthy incoming value, and a falsy incoming value changes
nothing. -/
def mergeFieldOkStr (stored incoming result : Option String) : Prop :=
  (strTruthy stored = true → result = stored) ∧
  (strTruthy stored = false → strTruthy incoming = true → result = incoming) ∧
  (strTruthy incoming = false → result = stored)

/-- Truthiness-aware merge contract for one nullable numeric column. -/
def mergeFieldOkNat (stored incoming result : Option Nat) : Prop :=
  (natTruthy stored = true → result = stored) ∧
  (natTruthy stored = false → natTruthy incoming = true → result = incoming) ∧
  (natTruthy incoming = false → result = stored)

/-- The C6 scenario input: source `meta_ads`, phone `11999998888`, project
stage `acabamentos`, estimated ticket `150000`, all other qualification
fields absent. -/
def c6Input : RawLeadInput :=
  { name := "Lead Meta", phone := "11999998888", source := "meta_ads",
    project_stage := some "acabamentos", estimated_ticket := some 150000 }

/-- Environment with the SDR notification group configured. -/
def c6Env : Env := { sdrGroup := some "sdr-group" }

/-- An input whose phone normalizes to the empty string (no digits at
all). -/
def c7Input : RawLeadInput :=
  { name := "Sem nome", phone := "not-a-phone", source := "website" }

/-- Existing lead with a null email. -/
def c5LeadNullEmail : LeadRow := mkLead 1 "5511999887766"

/-- Incoming duplicate contact whose email is the empty string: non-null,
but falsy for the merge condition. -/
def c5InputEmptyEmail : RawLeadInput :=
  { name := "Ana", phone := "11999887766", source := "website", email := some "" }

/-- Existing lead whose stored email is the (non-null) empty string. -/
def c5LeadEmptyEmail : LeadRow := { mkLead 2 "5511988776655" with email := some "" }

/-- Incoming duplicate contact with a fresh non-empty email. -/
def c5InputNewEmail : RawLeadInput :=
  { name := "Bia", phone := "11988776655", source := "website",
    email := some "bia@example.com" }

/-- Existing lead with a non-empty stored email (merge-witness fixture). -/
def c5WitnessLead : LeadRow := { mkLead 3 "5511977665544" with email := some "kept@example.com" }

/-- The lead owning the SLA fixtures below. -/
def wLead : LeadRow := mkLead 7 "5511900000001"

/-- An open, unbreached, unnotified `response_5min` commitment with the
given id and deadline, owned by `wLead`. -/
def wOpenSla (id dl : Nat) : SlaRow :=
  { id := id, lead_id := 7, sla_type := "response_5min", started_at := 0, deadline_at := dl,
    completed_at := none, breached := false, notified := false }

/-- Store holding one open commitment whose deadline is still in the
future at clock 2000. -/
def wStFuture : St := { leads := [wLead], sla_events := [wOpenSla 3 5000] }

/-- Store holding one open commitment past deadline at clock 2000. -/
def wStDue : St := { leads := [wLead], sla_events := [wOpenSla 4 1000] }

/-- Environment with the SDR group configured (breach sends succeed). -/
def wEnvGroup : Env := { sdrGroup := some "sdr" }

/-- Environment with the SDR group configured but the WhatsApp send
failing. -/
def wEnvSendFail : Env := { sdrGroup := some "sdr", waSendOk := false }

/-- Environment with both the SDR and the ops escalation groups
configured, all sends succeeding. -/
def c3Env : Env := { sdrGroup := some "sdr", opsGroup := some "ops" }

/-- Follow-up fixture: a store with one lead, the step templates of one
sequence, one execution row, and a given audit trail. -/
def fupSt (lead : LeadRow) (steps : List StepRow) (e : FupExec) (acts : List ActivityRow) : St :=
  { leads := [lead], activities := acts, follow_up_steps := steps, follow_up_executions := [e] }

/-- An active execution of the given sequence at the given step index,
scheduled to run at `due`. -/
def activeExec (eid lid sid k due : Nat) : FupExec :=
  { id := eid, lead_id := lid, sequence_id := sid, current_step := k, status := "active",
    next_run_at := some due, completed_at := none }

/-- The terminal execution row after the last step was sent at time `c`. -/
def doneExec (eid lid sid n c : Nat) : FupExec :=
  { id := eid, lead_id := lid, sequence_id := sid, current_step := n, status := "completed",
    next_run_at := none, completed_at := some c }

/-- A two-step sequence for the follow-up witness. -/
def c4Specs : List StepSpec := [⟨10, "a"⟩, ⟨20, "b"⟩]

/-- C8: phone normalization satisfies the three reference equations: an
11-digit local mobile gets the country code prepended, a legacy 10-digit
number gets the country code and the inserted ninth digit, and a formatted
`+55` number is reduced to bare digits. -/
theorem normalizePhone_reference_equations :
    normalizePhone "11999887766" = "5511999887766" ∧
    normalizePhone "1198765432" = "5511998765432" ∧
    normalizePhone "+55 (11) 99988-7766" = "5511999887766" := by
  refine ⟨by decide, by decide, by decide⟩

/-- C5 counterexample: the merge condition is JS truthiness, not
null-ness.  An email that is null on the existing lead and non-null (but
empty) on the incoming data is NOT copied in, and a stored non-null (but
empty) email IS overwritten by an incoming email — both contradict the
claim that every null-on-existing/non-null-on-incoming field is copied and
that a field already set is never overwritten. -/
theorem mergeLead_truthiness_counterexample :
    c5LeadNullEmail.email = none ∧
    c5InputEmptyEmail.email = some "" ∧
    (mergeLead c5LeadNullEmail c5InputEmptyEmail).email = none ∧
    c5LeadEmptyEmail.email = some "" ∧
    c5InputNewEmail.email = some "bia@example.com" ∧
    (mergeLead c5LeadEmptyEmail c5InputNewEmail).email = some "bia@example.com" := by
  decide

/-- C5 amended: the merge copies a candidate field exactly when the stored
value is falsy (null or empty string, or zero for the ticket) and the
incoming value is truthy; a truthy stored value is never overwritten and a
falsy incoming value never changes anything; all non-candidate columns are
untouched; in particular an existing non-empty email survives any incoming
email unchanged. -/
theorem mergeLead_never_overwrites_truthy :
    ∀ (existing : LeadRow) (input : RawLeadInput),
      mergeFieldOkStr existing.email input.email (mergeLead existing input).email ∧
      mergeFieldOkStr existing.client_type input.client_type
        (mergeLead existing input).client_type ∧
      mergeFieldOkStr existing.project_type input.project_type
        (mergeLead existing input).project_type ∧
      mergeFieldOkStr existing.project_stage input.project_stage
        (mergeLead existing input).project_stage ∧
      mergeFieldOkStr existing.location input.location (mergeLead existing input).location ∧
      mergeFieldOkNat existing.estimated_ticket input.estimated_ticket
        (mergeLead existing input).estimated_ticket ∧
      (mergeLead existing input).name = existing.name ∧
      (mergeLead existing input).phone = existing.phone ∧
      (mergeLead existing input).phone_normalized = existing.phone_normalized ∧
      (mergeLead existing input).stage = existing.stage ∧
      (mergeLead existing input).funnel = existing.funnel ∧
      (mergeLead existing input).score = existing.score ∧
      (mergeLead existing input).source = existing.source ∧
      (∀ e : String, existing.email = some e → e ≠ "" →
        (mergeLead existing input).email = some e) := by
  intro existing input
  refine ⟨⟨?_, ?_, ?_⟩, ⟨?_, ?_, ?_⟩, ⟨?_, ?_, ?_⟩, ⟨?_, ?_, ?_⟩, ⟨?_, ?_, ?_⟩,
    ⟨?_, ?_, ?_⟩, ?_, ?_, ?_, ?_, ?_, ?_, ?_, ?_⟩
  · intro h; simp [mergeLead, h]
  · intro h1 h2; simp [mergeLead, h1, h2]
  · intro h; simp [mergeLead, h]
  · intro h; simp [mergeLead, h]
  · intro h1 h2; simp [mergeLead, h1, h2]
  · intro h; simp [mergeLead, h]
  · intro h; simp [mergeLead, h]
  · intro h1 h2; simp [mergeLead, h1, h2]
  · intro h; simp [mergeLead, h]
  · intro h; simp [mergeLead, h]
  · intro h1 h2; simp [mergeLead, h1, h2]
  · intro h; simp [mergeLead, h]
  · intro h; simp [mergeLead, h]
  · intro h1 h2; simp [mergeLead, h1, h2]
  · intro h; simp [mergeLead, h]
  · intro h; simp [mergeLead, h]
  · intro h1 h2; simp [mergeLead, h1, h2]
  · intro h; simp [mergeLead, h]
  · simp [mergeLead]
  · simp [mergeLead]
  · simp [mergeLead]
  · simp [mergeLead]
  · simp [mergeLead]
  · simp [mergeLead]
  · simp [mergeLead]
  · intro e he hne; simp [mergeLead, he, strTruthy, hne]

/-- C5 amended witness: an existing lead whose email is the non-empty
string survives an incoming different email unchanged. -/
theorem mergeLead_never_overwrites_truthy_witness :
    (mergeLead c5WitnessLead c5InputNewEmail).email = some "kept@example.com" :=
  (mergeLead_never_overwrites_truthy c5WitnessLead
    c5InputNewEmail).2.2.2.2.2.2.2.2.2.2.2.2.2 "kept@example.com" (by decide) (by decide)

/-- C6 counterexample: the scenario input scores 54, not at least 80 —
source `meta_ads` contributes 10, stage `acabamentos` 20, the 150000
ticket 20, and two of seven completeness fields round to 4; the lead row
created by ingestion carries exactly that score. -/
theorem ingest_meta_scenario_score_counterexample :
    ((ingestLead c6Env 0 {} c6Input).1.leads.map fun l => l.score) = [54] ∧
    scoreLead c6Input = 54 ∧ ¬ (80 ≤ scoreLead c6Input) := by
  refine ⟨by decide, by decide, by decide⟩

lemma any_key_map_update (l : List WebhookLog) (k status : String) (err : Option String)
    (k' : String) :
    ((l.map fun w => if w.idempotency_key = k then { w with status := status, error := err }
        else w).any fun w => w.idempotency_key == k') =
      (l.any fun w => w.idempotency_key == k') := by
  induction l with
  | nil => rfl
  | cons w ws ih =>
      simp only [List.map_cons, List.any_cons, ih]
      congr 1
      split <;> rfl

lemma markWebhookStatus_any (st : St) (k status : String) (err : Option String) (k' : String) :
    ((markWebhookStatus st k status err).webhook_logs.any fun w => w.idempotency_key == k') =
      (st.webhook_logs.any fun w => w.idempotency_key == k') :=
  any_key_map_update st.webhook_logs k status err k'

lemma ingestLead_webhook_logs (env : Env) (now : Nat) (st : St) (input : RawLeadInput) :
    (ingestLead env now st input).1.webhook_logs = st.webhook_logs := by
  rcases h : st.leads.find? (fun l => l.phone_normalized == normalizePhone input.phone) with _ | ex
  · cases hp : env.pipedriveOk <;>
      simp [ingestLead, h, syncToPipedrive, startSla, hp]
  · simp [ingestLead, h, mergeLeadOp]

lemma ingestLead_new_shape (env : Env) (now : Nat) (st : St) (input : RawLeadInput)
    (hfind : (st.leads.find? fun l => l.phone_normalized == normalizePhone input.phone) = none)
    (hfresh : ∀ l ∈ st.leads, l.id ≠ st.next_id) :
    ∃ lead : LeadRow,
      (ingestLead env now st input).1.leads = st.leads ++ [lead] ∧
      lead.id = st.next_id ∧
      lead.score = scoreLead input ∧
      lead.phone_normalized = normalizePhone input.phone ∧
      (ingestLead env now st input).2.1 = true ∧
      (ingestLead env now st input).1.sla_events = st.sla_events ++
        [{ id := st.next_id + 1, lead_id := st.next_id, sla_type := "response_5min",
           started_at := now, deadline_at := now + 5 * 60 * 1000, completed_at := none,
           breached := false, notified := false }] ∧
      (((ingestLead env now st input).2.2).filter isOutboundNotification).length =
        (if env.sdrGroup.isSome then 1 else 0) := by
  have hdur : SLA_DURATIONS "response_5min" = 5 * 60 * 1000 := rfl
  have hmap : (st.leads.map fun l => if l.id = st.next_id then
      { l with pipedrive_person_id := some 1, pipedrive_deal_id := some 1 } else l) = st.leads := by
    calc (st.leads.map fun l => if l.id = st.next_id then
          { l with pipedrive_person_id := some 1, pipedrive_deal_id := some 1 } else l)
        = st.leads.map id := List.map_congr_left (fun a ha => by simp [hfresh a ha])
      _ = st.leads := List.map_id _
  cases hp : env.pipedriveOk with
  | true =>
      refine ⟨{ newLeadRow st input (normalizePhone input.phone) with
          pipedrive_person_id := some 1, pipedrive_deal_id := some 1 },
        ?_, ?_, ?_, ?_, ?_, ?_, ?_⟩ <;>
        cases hg : env.sdrGroup <;>
          simp [ingestLead, hfind, syncToPipedrive, startSla, hp, hg, newLeadRow, notifyNewLead,
            isOutboundNotification, hmap, hdur, List.filter_append]
  | false =>
      refine ⟨newLeadRow st input (normalizePhone input.phone), ?_, ?_, ?_, ?_, ?_, ?_, ?_⟩ <;>
        cases hg : env.sdrGroup <;>
          simp [ingestLead, hfind, syncToPipedrive, startSla, hp, hg, newLeadRow, notifyNewLead,
            isOutboundNotification, hdur, List.filter_append]

lemma guard_fresh (env : Env) (st : St) (source eventType key : String)
    (h1 : env.storageOk = true)
    (h2 : (st.webhook_logs.any fun w => w.idempotency_key == key) = false) :
    isNewWebhookEvent env st source eventType key =
      .ok ({ st with webhook_logs :=
          st.webhook_logs ++ [⟨source, eventType, key, "received", none⟩] }, true) := by
  simp [isNewWebhookEvent, insertWebhookLog, h1, h2]

lemma guard_dup (env : Env) (st : St) (source eventType key : String)
    (h1 : env.storageOk = true)
    (h2 : (st.webhook_logs.any fun w => w.idempotency_key == key) = true) :
    isNewWebhookEvent env st source eventType key = .ok (st, false) := by
  simp [isNewWebhookEvent, insertWebhookLog, h1, h2]

lemma guard_storage (env : Env) (st : St) (source eventType key : String)
    (h1 : env.storageOk = false) :
    isNewWebhookEvent env st source eventType key = .error .storage := by
  simp [isNewWebhookEvent, insertWebhookLog, h1]

/-- C1: the idempotency guard admits a fresh dedup key by inserting exactly
one `received` InboundEvent row and reporting the event as new; an insert
hitting the store's uniqueness violation reports a duplicate without error
and without changing the store; any other storage failure propagates; and a
caller processing the same Meta leadgen event twice gets a duplicate
short-circuit on the second call, leaving the whole state — the Lead table
in particular — unchanged. -/
theorem webhook_guard_idempotency :
    (∀ (env : Env) (st : St) (source eventType key : String),
      env.storageOk = true →
      (st.webhook_logs.any fun w => w.idempotency_key == key) = false →
      isNewWebhookEvent env st source eventType key =
        .ok ({ st with webhook_logs :=
            st.webhook_logs ++ [⟨source, eventType, key, "received", none⟩] }, true)) ∧
    (∀ (env : Env) (st : St) (source eventType key : String),
      env.storageOk = true →
      (st.webhook_logs.any fun w => w.idempotency_key == key) = true →
      isNewWebhookEvent env st source eventType key = .ok (st, false)) ∧
    (∀ (env : Env) (st : St) (source eventType key : String),
      env.storageOk = false →
      isNewWebhookEvent env st source eventType key = .error .storage) ∧
    (∀ (env : Env) (now now2 : Nat) (st st1 : St) (lg : String) (f f2 : RawLeadInput)
        (out : List Action),
      env.storageOk = true →
      processMetaLeadgen env now st lg f = .ok (st1, out) →
      processMetaLeadgen env now2 st1 lg f2 = .ok (st1, []) ∧
      (processMetaLeadgen env now2 st1 lg f2).map (fun r => r.1.leads) = .ok st1.leads) := by
  refine ⟨guard_fresh, guard_dup, guard_storage, ?_⟩
  intro env now now2 st st1 lg f f2 out h1 h2
  by_cases hk : (st.webhook_logs.any fun w => w.idempotency_key == ("meta_" ++ lg)) = true
  · rw [processMetaLeadgen, guard_dup env st "meta_ads" "leadgen" ("meta_" ++ lg) h1 hk] at h2
    simp only [Except.ok.injEq, Prod.mk.injEq] at h2
    obtain ⟨rfl, rfl⟩ := h2
    rw [processMetaLeadgen, guard_dup env st "meta_ads" "leadgen" ("meta_" ++ lg) h1 hk]
    exact ⟨rfl, rfl⟩
  · rw [Bool.not_eq_true] at hk
    rw [processMetaLeadgen,
      guard_fresh env st "meta_ads" "leadgen" ("meta_" ++ lg) h1 hk] at h2
    simp only [Except.ok.injEq, Prod.mk.injEq] at h2
    obtain ⟨rfl, rfl⟩ := h2
    have hany : ((markWebhookStatus
        (ingestLead env now ({ st with webhook_logs :=
          st.webhook_logs ++ [⟨"meta_ads", "leadgen", "meta_" ++ lg, "received", none⟩] }) f).1
        ("meta_" ++ lg) "processed" none).webhook_logs.any
          fun w => w.idempotency_key == ("meta_" ++ lg)) = true := by
      rw [markWebhookStatus_any, ingestLead_webhook_logs]
      simp
    rw [processMetaLeadgen, guard_dup env _ "meta_ads" "leadgen" ("meta_" ++ lg) h1 hany]
    exact ⟨rfl, rfl⟩

/-- C1 witness: a fresh key inserts the `received` row and reports new, and
the Meta caller processing the same leadgen id twice ends with the second
call a no-op duplicate. -/
theorem webhook_guard_idempotency_witness :
    (isNewWebhookEvent {} ({} : St) "m" "l" "k1" =
        .ok ({ webhook_logs := [⟨"m", "l", "k1", "received", none⟩] }, true)) ∧
    ∃ (st1 : St) (out : List Action),
      processMetaLeadgen c6Env 0 {} "9" c7Input = .ok (st1, out) ∧
      processMetaLeadgen c6Env 1 st1 "9" c7Input = .ok (st1, []) := by
  constructor
  · simpa using webhook_guard_idempotency.1 {} {} "m" "l" "k1" rfl (by decide)
  · rcases hp : processMetaLeadgen c6Env 0 {} "9" c7Input with e | ⟨s1, o⟩
    · cases e <;> exact absurd hp (by decide)
    · exact ⟨s1, o, rfl,
        (webhook_guard_idempotency.2.2.2 c6Env 0 1 {} s1 "9" c7Input c7Input o rfl hp).1⟩

/-- C6 amended: for the scenario input (source `meta_ads`, phone
`11999998888`, stage `acabamentos`, ticket `150000`, other qualification
fields absent), ingestion creates the lead with score 54 (not at least 80:
the weighted rules yield 10+20+20+4), starts a `response_5min` commitment
with deadline `now` plus 5 minutes, and attempts exactly one outbound
notification (the SDR group being configured). -/
theorem ingest_meta_scenario_amended :
    ∀ (env : Env) (now : Nat) (st : St) (g : String),
      env.sdrGroup = some g →
      (st.leads.find? fun l => l.phone_normalized == "5511999998888") = none →
      (∀ l ∈ st.leads, l.id ≠ st.next_id) →
      (ingestLead env now st c6Input).2.1 = true ∧
      (∃ lead, (ingestLead env now st c6Input).1.leads = st.leads ++ [lead] ∧
        lead.score = 54 ∧ lead.phone_normalized = "5511999998888") ∧
      (ingestLead env now st c6Input).1.sla_events = st.sla_events ++
        [{ id := st.next_id + 1, lead_id := st.next_id, sla_type := "response_5min",
           started_at := now, deadline_at := now + 5 * 60 * 1000, completed_at := none,
           breached := false, notified := false }] ∧
      (((ingestLead env now st c6Input).2.2).filter isOutboundNotification).length = 1 := by
  intro env now st g hg hfind hfresh
  have hn : normalizePhone c6Input.phone = "5511999998888" := by decide
  have hfind' : (st.leads.find? fun l => l.phone_normalized == normalizePhone c6Input.phone)
      = none := by rw [hn]; exact hfind
  obtain ⟨lead, h1, h2, h3, h4, h5, h6, h7⟩ := ingestLead_new_shape env now st c6Input hfind' hfresh
  have hscore : scoreLead c6Input = 54 := by decide
  refine ⟨h5, ⟨lead, h1, by rw [h3, hscore], by rw [h4, hn]⟩, h6, ?_⟩
  rw [h7, hg]
  rfl

/-- C6 amended witness: the scenario run on an empty store. -/
theorem ingest_meta_scenario_amended_witness :
    (ingestLead c6Env 0 {} c6Input).2.1 = true ∧
    (((ingestLead c6Env 0 {} c6Input).2.2).filter isOutboundNotification).length = 1 := by
  have h := ingest_meta_scenario_amended c6Env 0 {} "sdr-group" rfl (by decide)
    (by intro l hl; simp at hl)
  exact ⟨h.1, h.2.2.2⟩

/-- C7 counterexample: an input whose phone normalizes to the empty string
is NOT rejected — `ingestLead` has no InvalidContact failure path — and on
a store with no empty-phone lead it silently creates a Lead whose
normalized phone is the empty string. -/
theorem ingest_empty_phone_counterexample :
    normalizePhone c7Input.phone = "" ∧
    ((ingestLead {} 0 {} c7Input).1.leads.map fun l => l.phone_normalized) = [""] ∧
    (ingestLead {} 0 {} c7Input).2.1 = true := by
  refine ⟨by decide, by decide, by decide⟩

/-- C7 amended: resolution never fails on an empty normalized phone — there
is no InvalidContact error in the pipeline; when no lead with an empty
normalized phone exists yet, a junk Lead with empty normalized phone is
created and reported as new. -/
theorem ingest_empty_phone_amended :
    ∀ (env : Env) (now : Nat) (st : St) (input : RawLeadInput),
      normalizePhone input.phone = "" →
      (st.leads.find? fun l => l.phone_normalized == "") = none →
      (∀ l ∈ st.leads, l.id ≠ st.next_id) →
      (ingestLead env now st input).2.1 = true ∧
      ∃ lead, (ingestLead env now st input).1.leads = st.leads ++ [lead] ∧
        lead.phone_normalized = "" := by
  intro env now st input hn hfind hfresh
  have hfind' : (st.leads.find? fun l => l.phone_normalized == normalizePhone input.phone)
      = none := by rw [hn]; exact hfind
  obtain ⟨lead, h1, _, _, h4, h5, _, _⟩ := ingestLead_new_shape env now st input hfind' hfresh
  exact ⟨h5, lead, h1, by rw [h4, hn]⟩

/-- C7 amended witness: the junk-contact input on an empty store. -/
theorem ingest_empty_phone_amended_witness :
    (ingestLead {} 0 {} c7Input).2.1 = true ∧
    ∃ lead, (ingestLead ({} : Env) 0 ({} : St) c7Input).1.leads = [] ++ [lead] ∧
      lead.phone_normalized = "" := by
  exact ingest_empty_phone_amended {} 0 {} c7Input (by decide) (by decide)
    (by intro l hl; simp at hl)

lemma slaBreachStep_sla_events (env : Env) (st : St) (out : List Action) (s : BreachView) :
    ((slaBreachStep env (st, out) s).1).sla_events = st.sla_events.map (breachRowUpd env s) := by
  cases hn : s.notified <;> cases hg : env.sdrGroup <;> cases hw : env.waSendOk <;>
    simp only [slaBreachStep, setBreached, setNotified, hn, hg, hw, List.map_map] <;>
    refine List.map_congr_left fun e he => ?_ <;>
    by_cases h : e.id = s.id <;> simp [breachRowUpd, hn, hg, hw, h, Function.comp]

lemma slaBreachStep_leads (env : Env) (st : St) (out : List Action) (s : BreachView) :
    ((slaBreachStep env (st, out) s).1).leads = st.leads := by
  cases hn : s.notified <;> cases hg : env.sdrGroup <;> cases hw : env.waSendOk <;>
    simp [slaBreachStep, hn, hg, hw]

lemma slaBreachStep_out (env : Env) (st : St) (out : List Action) (s : BreachView) :
    (slaBreachStep env (st, out) s).2 = out ++ breachEmit env s := by
  cases hn : s.notified <;> cases hg : env.sdrGroup <;> cases hw : env.waSendOk <;>
    simp [slaBreachStep, breachEmit, hn, hg, hw]

lemma breach_fold_sla_events (env : Env) :
    ∀ (snap : List BreachView) (st : St) (out : List Action),
      ((snap.foldl (slaBreachStep env) (st, out)).1).sla_events =
        st.sla_events.map (breachRowsUpd env snap) := by
  intro snap
  induction snap with
  | nil =>
      intro st out
      exact ((List.map_congr_left fun e _ => rfl).trans (List.map_id _)).symm
  | cons s rest ih =>
      intro st out
      rw [List.foldl_cons]
      have h1 := ih (slaBreachStep env (st, out) s).1 (slaBreachStep env (st, out) s).2
      rw [show slaBreachStep env (st, out) s =
        ((slaBreachStep env (st, out) s).1, (slaBreachStep env (st, out) s).2) from rfl] at h1 ⊢
      rw [h1, slaBreachStep_sla_events, List.map_map]
      refine List.map_congr_left fun e he => ?_
      simp [breachRowsUpd, Function.comp]

lemma breach_fold_leads (env : Env) :
    ∀ (snap : List BreachView) (st : St) (out : List Action),
      ((snap.foldl (slaBreachStep env) (st, out)).1).leads = st.leads := by
  intro snap
  induction snap with
  | nil => intro st out; rfl
  | cons s rest ih =>
      intro st out
      rw [List.foldl_cons]
      have h1 := ih (slaBreachStep env (st, out) s).1 (slaBreachStep env (st, out) s).2
      rw [show slaBreachStep env (st, out) s =
        ((slaBreachStep env (st, out) s).1, (slaBreachStep env (st, out) s).2) from rfl] at h1 ⊢
      rw [h1, slaBreachStep_leads]

lemma breach_fold_out (env : Env) :
    ∀ (snap : List BreachView) (st : St) (out : List Action),
      (snap.foldl (slaBreachStep env) (st, out)).2 =
        out ++ (snap.map (breachEmit env)).flatten := by
  intro snap
  induction snap with
  | nil => intro st out; simp
  | cons s rest ih =>
      intro st out
      rw [List.foldl_cons]
      have h1 := ih (slaBreachStep env (st, out) s).1 (slaBreachStep env (st, out) s).2
      rw [show slaBreachStep env (st, out) s =
        ((slaBreachStep env (st, out) s).1, (slaBreachStep env (st, out) s).2) from rfl] at h1 ⊢
      rw [h1, slaBreachStep_out, List.map_cons, List.flatten_cons, List.append_assoc]

lemma checkSla_sla_events (env : Env) (now : Nat) (st : St) :
    ((checkSlaBreaches env now st).1).sla_events =
      st.sla_events.map (breachRowsUpd env (slaBreachSelect now st)) :=
  breach_fold_sla_events env (slaBreachSelect now st) st []

lemma checkSla_leads (env : Env) (now : Nat) (st : St) :
    ((checkSlaBreaches env now st).1).leads = st.leads :=
  breach_fold_leads env (slaBreachSelect now st) st []

lemma checkSla_out (env : Env) (now : Nat) (st : St) :
    (checkSlaBreaches env now st).2.1 =
      ((slaBreachSelect now st).map (breachEmit env)).flatten :=
  breach_fold_out env (slaBreachSelect now st) st []

lemma breachRowUpd_id (env : Env) (s : BreachView) (e : SlaRow) :
    (breachRowUpd env s e).id = e.id := by
  cases hn : s.notified <;> cases hg : env.sdrGroup <;> cases hw : env.waSendOk <;>
    by_cases h : e.id = s.id <;> simp [breachRowUpd, hn, hg, hw, h]

lemma breachRowsUpd_id (env : Env) (snap : List BreachView) (e : SlaRow) :
    (breachRowsUpd env snap e).id = e.id := by
  induction snap generalizing e with
  | nil => rfl
  | cons s rest ih =>
      rw [breachRowsUpd, List.foldl_cons]
      rw [show (List.foldl (fun acc s => breachRowUpd env s acc) (breachRowUpd env s e) rest)
        = breachRowsUpd env rest (breachRowUpd env s e) from rfl]
      rw [ih, breachRowUpd_id]

lemma breachRowUpd_breached_mono (env : Env) (s : BreachView) (e : SlaRow)
    (h : e.breached = true) : (breachRowUpd env s e).breached = true := by
  cases hn : s.notified <;> cases hg : env.sdrGroup <;> cases hw : env.waSendOk <;>
    by_cases hid : e.id = s.id <;> simp [breachRowUpd, hn, hg, hw, hid, h]

lemma breachRowUpd_sets (env : Env) (s : BreachView) (e : SlaRow)
    (h : e.id = s.id) : (breachRowUpd env s e).breached = true := by
  cases hn : s.notified <;> cases hg : env.sdrGroup <;> cases hw : env.waSendOk <;>
    simp [breachRowUpd, hn, hg, hw, h]

lemma breachRowUpd_skip (env : Env) (s : BreachView) (e : SlaRow)
    (h : ¬ e.id = s.id) : breachRowUpd env s e = e := by
  simp [breachRowUpd, h]

lemma breachRowsUpd_breached_mono (env : Env) (snap : List BreachView) (e : SlaRow)
    (h : e.breached = true) : (breachRowsUpd env snap e).breached = true := by
  induction snap generalizing e with
  | nil => exact h
  | cons s rest ih =>
      rw [breachRowsUpd, List.foldl_cons]
      exact ih (breachRowUpd env s e) (breachRowUpd_breached_mono env s e h)

lemma breachRowsUpd_sets (env : Env) (snap : List BreachView) (e : SlaRow)
    (h : ∃ s ∈ snap, e.id = s.id) : (breachRowsUpd env snap e).breached = true := by
  induction snap generalizing e with
  | nil => obtain ⟨s, hs, _⟩ := h; cases hs
  | cons s rest ih =>
      rw [breachRowsUpd, List.foldl_cons]
      obtain ⟨s', hs', hid⟩ := h
      rcases List.mem_cons.1 hs' with rfl | hmem
      · exact breachRowsUpd_breached_mono env rest _ (breachRowUpd_sets env s' e hid)
      · exact ih (breachRowUpd env s e) ⟨s', hmem, by rw [breachRowUpd_id]; exact hid⟩

lemma breachRowsUpd_skip (env : Env) (snap : List BreachView) (e : SlaRow)
    (h : ∀ s ∈ snap, ¬ e.id = s.id) : breachRowsUpd env snap e = e := by
  induction snap with
  | nil => rfl
  | cons s rest ih =>
      rw [breachRowsUpd, List.foldl_cons, breachRowUpd_skip env s e (h s (by simp))]
      exact ih fun s' hs' => h s' (by simp [hs'])

lemma select_id_mem (now : Nat) (st : St) (rid : Nat)
    (h : rid ∈ (slaBreachSelect now st).map (·.id)) :
    ∃ e ∈ st.sla_events, e.id = rid ∧ e.completed_at = none ∧ e.breached = false ∧
      e.deadline_at < now := by
  obtain ⟨v, hv, hvid⟩ := List.mem_map.1 h
  obtain ⟨e, he, hfe⟩ := List.mem_filterMap.1 hv
  by_cases hc : e.completed_at = none ∧ e.breached = false ∧ e.deadline_at < now
  · rw [if_pos hc] at hfe
    obtain ⟨l, _, hvl⟩ := Option.map_eq_some'.1 hfe
    refine ⟨e, he, ?_, hc.1, hc.2.1, hc.2.2⟩
    rw [← hvl] at hvid
    exact hvid
  · rw [if_neg hc] at hfe
    cases hfe

lemma select_id_of (now : Nat) (st : St) (e : SlaRow)
    (he : e ∈ st.sla_events) (h1 : e.completed_at = none) (h2 : e.breached = false)
    (h3 : e.deadline_at < now) (hl : ∃ l ∈ st.leads, l.id = e.lead_id) :
    e.id ∈ (slaBreachSelect now st).map (·.id) := by
  obtain ⟨l0, hl0, hlid⟩ := hl
  have hsome : (st.leads.find? fun l => l.id == e.lead_id).isSome := by
    rw [List.find?_isSome]
    exact ⟨l0, hl0, by simp [hlid]⟩
  obtain ⟨lf, hlf⟩ := Option.isSome_iff_exists.1 hsome
  refine List.mem_map.2
    ⟨⟨e.id, e.lead_id, e.sla_type, e.deadline_at, e.notified, lf.name, lf.phone⟩, ?_, rfl⟩
  refine List.mem_filterMap.2 ⟨e, he, ?_⟩
  rw [if_pos ⟨h1, h2, h3⟩, hlf]
  rfl

lemma not_selected_of_allBreached (now : Nat) (st : St) (rid : Nat)
    (h : ∀ e ∈ st.sla_events, e.id = rid → e.breached = true) :
    rid ∉ (slaBreachSelect now st).map (·.id) := by
  intro hmem
  obtain ⟨e, he, hid, _, hb, _⟩ := select_id_mem now st rid hmem
  rw [h e he hid] at hb
  cases hb

lemma allBreached_post_of_selected (env : Env) (now : Nat) (st : St) (rid : Nat)
    (h : rid ∈ (slaBreachSelect now st).map (·.id)) :
    ∀ e ∈ ((checkSlaBreaches env now st).1).sla_events, e.id = rid → e.breached = true := by
  intro e' he' hid
  rw [checkSla_sla_events] at he'
  obtain ⟨e, he, rfl⟩ := List.mem_map.1 he'
  rw [breachRowsUpd_id] at hid
  obtain ⟨v, hv, hvid⟩ := List.mem_map.1 h
  exact breachRowsUpd_sets env _ e ⟨v, hv, by rw [hid, ← hvid]⟩

lemma allBreached_step (env : Env) (now : Nat) (st : St) (rid : Nat)
    (h : ∀ e ∈ st.sla_events, e.id = rid → e.breached = true) :
    ∀ e ∈ ((checkSlaBreaches env now st).1).sla_events, e.id = rid → e.breached = true := by
  intro e' he' hid
  rw [checkSla_sla_events] at he'
  obtain ⟨e, he, rfl⟩ := List.mem_map.1 he'
  rw [breachRowsUpd_id] at hid
  exact breachRowsUpd_breached_mono env _ e (h e he hid)

lemma timesSelected_zero (env : Env) :
    ∀ (ts : List Nat) (st : St) (rid : Nat),
      (∀ e ∈ st.sla_events, e.id = rid → e.breached = true) →
      timesSelected env ts st rid = 0 := by
  intro ts
  induction ts with
  | nil => intro st rid _; rfl
  | cons t ts ih =>
      intro st rid h
      simp only [timesSelected]
      rw [if_neg (not_selected_of_allBreached t st rid h),
        ih _ rid (allBreached_step env t st rid h)]

lemma allBreached_runs (env : Env) :
    ∀ (ts : List Nat) (st : St) (rid : Nat),
      (∀ e ∈ st.sla_events, e.id = rid → e.breached = true) →
      ∀ e ∈ (checkRuns env ts st).sla_events, e.id = rid → e.breached = true := by
  intro ts
  induction ts with
  | nil => intro st rid h; exact h
  | cons t ts ih =>
      intro st rid h
      exact ih _ rid (allBreached_step env t st rid h)

lemma distinctIds_unique : ∀ (l : List SlaRow), distinctIds l → ∀ a b : SlaRow,
    a ∈ l → b ∈ l → a.id = b.id → a = b := by
  intro l
  induction l with
  | nil => intro _ a b ha; cases ha
  | cons x xs ih =>
      intro h a b ha hb hid
      rw [distinctIds, List.pairwise_cons] at h
      rcases List.mem_cons.1 ha with rfl | ha' <;> rcases List.mem_cons.1 hb with rfl | hb'
      · rfl
      · exact absurd hid (h.1 b hb')
      · exact absurd hid.symm (h.1 a ha')
      · exact ih h.2 a b ha' hb' hid

/-- C2: `checkSlaBreaches` never touches a CommitmentEvent whose deadline
has not passed (the row is returned unchanged, still unbreached), and a row
that is uncompleted and past deadline at the first of a sequence of poll
cycles is selected — and therefore transitioned to breached — in exactly
one of those cycles, ending breached in the final state; once breached it
is never selected again. -/
theorem checkBreaches_breach_exactly_once :
    (∀ (env : Env) (now : Nat) (st : St) (r : SlaRow),
      distinctIds st.sla_events → r ∈ st.sla_events → r.breached = false →
      now ≤ r.deadline_at →
      ∀ e ∈ ((checkSlaBreaches env now st).1).sla_events, e.id = r.id → e = r) ∧
    (∀ (env : Env) (t1 : Nat) (ts : List Nat) (st : St) (r : SlaRow),
      r ∈ st.sla_events → r.completed_at = none → r.breached = false →
      (∃ l ∈ st.leads, l.id = r.lead_id) → r.deadline_at < t1 →
      timesSelected env (t1 :: ts) st r.id = 1 ∧
      ∀ e ∈ (checkRuns env (t1 :: ts) st).sla_events, e.id = r.id → e.breached = true) := by
  constructor
  · intro env now st r hdist hr hb hd
    have hnot : r.id ∉ (slaBreachSelect now st).map (·.id) := by
      intro hmem
      obtain ⟨e, he, hid, _, _, hlt⟩ := select_id_mem now st r.id hmem
      have he' := distinctIds_unique st.sla_events hdist e r he hr hid
      rw [he'] at hlt
      omega
    intro e' he' hid
    rw [checkSla_sla_events] at he'
    obtain ⟨e, he, rfl⟩ := List.mem_map.1 he'
    rw [breachRowsUpd_id] at hid
    have hskip : ∀ s ∈ slaBreachSelect now st, ¬ e.id = s.id := by
      intro s hs hc
      exact hnot (List.mem_map.2 ⟨s, hs, by rw [← hc, hid]⟩)
    rw [breachRowsUpd_skip env _ e hskip]
    exact distinctIds_unique st.sla_events hdist e r he hr hid
  · intro env t1 ts st r hr hc hb hl hd
    have hsel : r.id ∈ (slaBreachSelect t1 st).map (·.id) :=
      select_id_of t1 st r hr hc hb hd hl
    constructor
    · simp only [timesSelected]
      rw [if_pos hsel,
        timesSelected_zero env ts _ r.id (allBreached_post_of_selected env t1 st r.id hsel)]
    · have hstep : checkRuns env (t1 :: ts) st = checkRuns env ts (checkSlaBreaches env t1 st).1 :=
        rfl
      rw [hstep]
      exact allBreached_runs env ts _ r.id (allBreached_post_of_selected env t1 st r.id hsel)

/-- C2 witness: one open commitment past its deadline, polled twice. -/
theorem checkBreaches_breach_exactly_once_witness :
    timesSelected {} [2000, 3000] wStDue 4 = 1 :=
  (checkBreaches_breach_exactly_once.2 {} 2000 [3000] wStDue (wOpenSla 4 1000)
    (by decide) rfl rfl ⟨wLead, by decide, rfl⟩ (by decide)).1

lemma select_mem_of (now : Nat) (st : St) (e : SlaRow)
    (he : e ∈ st.sla_events) (h1 : e.completed_at = none) (h2 : e.breached = false)
    (h3 : e.deadline_at < now) (hl : ∃ l ∈ st.leads, l.id = e.lead_id) :
    ∃ v ∈ slaBreachSelect now st, v.id = e.id ∧ v.notified = e.notified := by
  obtain ⟨l0, hl0, hlid⟩ := hl
  have hsome : (st.leads.find? fun l => l.id == e.lead_id).isSome := by
    rw [List.find?_isSome]
    exact ⟨l0, hl0, by simp [hlid]⟩
  obtain ⟨lf, hlf⟩ := Option.isSome_iff_exists.1 hsome
  refine ⟨⟨e.id, e.lead_id, e.sla_type, e.deadline_at, e.notified, lf.name, lf.phone⟩,
    ?_, rfl, rfl⟩
  refine List.mem_filterMap.2 ⟨e, he, ?_⟩
  rw [if_pos ⟨h1, h2, h3⟩, hlf]
  rfl

lemma select_ids_pairwise (now : Nat) (st : St) (h : distinctIds st.sla_events) :
    (slaBreachSelect now st).Pairwise fun a b => a.id ≠ b.id := by
  refine List.pairwise_filterMap.2 (h.imp ?_)
  intro e e' hne v hv v' hv'
  rw [Option.mem_def] at hv hv'
  intro hc
  by_cases hce : e.completed_at = none ∧ e.breached = false ∧ e.deadline_at < now
  · by_cases hce' : e'.completed_at = none ∧ e'.breached = false ∧ e'.deadline_at < now
    · rw [if_pos hce] at hv
      rw [if_pos hce'] at hv'
      obtain ⟨l1, _, hv1⟩ := Option.map_eq_some'.1 hv
      obtain ⟨l2, _, hv2⟩ := Option.map_eq_some'.1 hv'
      rw [← hv1, ← hv2] at hc
      exact hne hc
    · rw [if_neg hce'] at hv'
      cases hv'
  · rw [if_neg hce] at hv
    cases hv

lemma distinct_post (env : Env) (now : Nat) (st : St) (h : distinctIds st.sla_events) :
    distinctIds ((checkSlaBreaches env now st).1).sla_events := by
  rw [distinctIds, checkSla_sla_events, List.pairwise_map]
  refine h.imp ?_
  intro a b hne
  rw [breachRowsUpd_id, breachRowsUpd_id]
  exact hne

lemma emit_count_zero (env : Env) (rid : Nat) :
    ∀ (snap : List BreachView), rid ∉ snap.map (·.id) →
      (((snap.map (breachEmit env)).flatten).filter
        fun a => decide (a = Action.waGroupBreach rid)).length = 0 := by
  intro snap
  induction snap with
  | nil => intro _; rfl
  | cons s rest ih =>
      intro h
      rw [List.map_cons, List.mem_cons, not_or] at h
      rw [List.map_cons, List.flatten_cons, List.filter_append, List.length_append,
        ih h.2, Nat.add_zero]
      have hne : ¬ (Action.waGroupBreach s.id = Action.waGroupBreach rid) := by
        intro hc
        injection hc with h'
        exact h.1 h'.symm
      cases hn : s.notified <;> rcases hg : env.sdrGroup with _ | g <;>
        simp [breachEmit, hn, hg, hne]

lemma emit_count_le_one (env : Env) (rid : Nat) :
    ∀ (snap : List BreachView), snap.Pairwise (fun a b => a.id ≠ b.id) →
      (((snap.map (breachEmit env)).flatten).filter
        fun a => decide (a = Action.waGroupBreach rid)).length ≤ 1 := by
  intro snap
  induction snap with
  | nil => intro _; exact Nat.zero_le 1
  | cons s rest ih =>
      intro hpw
      rw [List.pairwise_cons] at hpw
      rw [List.map_cons, List.flatten_cons, List.filter_append, List.length_append]
      by_cases hid : s.id = rid
      · have hrest : rid ∉ rest.map (·.id) := by
          intro hc
          obtain ⟨b, hb, hbid⟩ := List.mem_map.1 hc
          exact hpw.1 b hb (by rw [hid, hbid])
        rw [emit_count_zero env rid rest hrest]
        have hle : ((breachEmit env s).filter
            fun a => decide (a = Action.waGroupBreach rid)).length ≤ 1 := by
          calc ((breachEmit env s).filter
              fun a => decide (a = Action.waGroupBreach rid)).length
              ≤ (breachEmit env s).length := List.length_filter_le _ _
            _ ≤ 1 := by
                cases hn : s.notified <;> rcases hg : env.sdrGroup with _ | g <;>
                  simp [breachEmit, hn, hg]
        omega
      · have hne : ¬ (Action.waGroupBreach s.id = Action.waGroupBreach rid) := by
          intro hc
          injection hc with h'
          exact hid h'
        have h0 : ((breachEmit env s).filter
            fun a => decide (a = Action.waGroupBreach rid)).length = 0 := by
          cases hn : s.notified <;> rcases hg : env.sdrGroup with _ | g <;>
            simp [breachEmit, hn, hg, hne]
        rw [h0, Nat.zero_add]
        exact ih hpw.2

lemma emit_count_eq_one (env : Env) (rid : Nat) (g : String) (hg : env.sdrGroup = some g) :
    ∀ (snap : List BreachView), snap.Pairwise (fun a b => a.id ≠ b.id) →
      (∃ s ∈ snap, s.id = rid ∧ s.notified = false) →
      (((snap.map (breachEmit env)).flatten).filter
        fun a => decide (a = Action.waGroupBreach rid)).length = 1 := by
  intro snap
  induction snap with
  | nil => intro _ h; obtain ⟨s, hs, _⟩ := h; cases hs
  | cons s rest ih =>
      intro hpw hex
      rw [List.pairwise_cons] at hpw
      rw [List.map_cons, List.flatten_cons, List.filter_append, List.length_append]
      obtain ⟨s', hs', hid, hnot⟩ := hex
      rcases List.mem_cons.1 hs' with rfl | hmem
      · have hrest : rid ∉ rest.map (·.id) := by
          intro hc
          obtain ⟨b, hb, hbid⟩ := List.mem_map.1 hc
          exact hpw.1 b hb (by rw [hid, hbid])
        rw [emit_count_zero env rid rest hrest]
        simp [breachEmit, hnot, hg, hid]
      · have hne : ¬ (Action.waGroupBreach s.id = Action.waGroupBreach rid) := by
          intro hc
          injection hc with h'
          exact hpw.1 s' hmem (h'.trans hid.symm)
        have h0 : ((breachEmit env s).filter
            fun a => decide (a = Action.waGroupBreach rid)).length = 0 := by
          cases hn : s.notified <;> simp [breachEmit, hn, hg, hne]
        rw [h0, Nat.zero_add]
        exact ih hpw.2 ⟨s', hmem, hid, hnot⟩

lemma breachAttempts_zero (env : Env) :
    ∀ (ts : List Nat) (st : St) (rid : Nat),
      (∀ e ∈ st.sla_events, e.id = rid → e.breached = true) →
      breachAttemptsFor env ts st rid = 0 := by
  intro ts
  induction ts with
  | nil => intro st rid _; rfl
  | cons t ts ih =>
      intro st rid h
      simp only [breachAttemptsFor]
      rw [checkSla_out, emit_count_zero env rid _ (not_selected_of_allBreached t st rid h),
        ih _ rid (allBreached_step env t st rid h)]

lemma timesSelected_le_one (env : Env) :
    ∀ (ts : List Nat) (st : St) (rid : Nat), timesSelected env ts st rid ≤ 1 := by
  intro ts
  induction ts with
  | nil => intro st rid; exact Nat.zero_le 1
  | cons t ts ih =>
      intro st rid
      simp only [timesSelected]
      by_cases hm : rid ∈ (slaBreachSelect t st).map (·.id)
      · rw [if_pos hm,
          timesSelected_zero env ts _ rid (allBreached_post_of_selected env t st rid hm)]
      · rw [if_neg hm, Nat.zero_add]
        exact ih _ rid

lemma breachAttempts_le (env : Env) :
    ∀ (ts : List Nat) (st : St) (rid : Nat), distinctIds st.sla_events →
      breachAttemptsFor env ts st rid ≤ timesSelected env ts st rid := by
  intro ts
  induction ts with
  | nil => intro st rid _; exact Nat.le_refl 0
  | cons t ts ih =>
      intro st rid h
      simp only [breachAttemptsFor, timesSelected]
      have hcycle : ((checkSlaBreaches env t st).2.1.filter
          fun a => decide (a = Action.waGroupBreach rid)).length ≤
          (if rid ∈ (slaBreachSelect t st).map (·.id) then 1 else 0) := by
        rw [checkSla_out]
        by_cases hm : rid ∈ (slaBreachSelect t st).map (·.id)
        · rw [if_pos hm]
          exact emit_count_le_one env rid _ (select_ids_pairwise t st h)
        · rw [if_neg hm, emit_count_zero env rid _ hm]
      exact Nat.add_le_add hcycle (ih _ rid (distinct_post env t st h))

lemma breachRowUpd_notified_sendfail (env : Env) (s : BreachView) (e : SlaRow) (g : String)
    (hg : env.sdrGroup = some g) (hw : env.waSendOk = false) :
    (breachRowUpd env s e).notified = e.notified := by
  cases hn : s.notified <;> by_cases hid : e.id = s.id <;>
    simp [breachRowUpd, hn, hg, hw, hid]

lemma breachRowsUpd_notified_sendfail (env : Env) (snap : List BreachView) (e : SlaRow)
    (g : String) (hg : env.sdrGroup = some g) (hw : env.waSendOk = false) :
    (breachRowsUpd env snap e).notified = e.notified := by
  induction snap generalizing e with
  | nil => rfl
  | cons s rest ih =>
      rw [breachRowsUpd, List.foldl_cons]
      rw [show (List.foldl (fun acc s => breachRowUpd env s acc) (breachRowUpd env s e) rest)
        = breachRowsUpd env rest (breachRowUpd env s e) from rfl]
      rw [ih, breachRowUpd_notified_sendfail env s e g hg hw]

lemma notified_false_runs_sendfail (env : Env) (g : String)
    (hg : env.sdrGroup = some g) (hw : env.waSendOk = false) :
    ∀ (ts : List Nat) (st : St) (rid : Nat),
      (∀ e ∈ st.sla_events, e.id = rid → e.notified = false) →
      ∀ e ∈ (checkRuns env ts st).sla_events, e.id = rid → e.notified = false := by
  intro ts
  induction ts with
  | nil => intro st rid h; exact h
  | cons t ts ih =>
      intro st rid h
      refine ih _ rid ?_
      intro e' he' hid
      rw [checkSla_sla_events] at he'
      obtain ⟨e, he, rfl⟩ := List.mem_map.1 he'
      rw [breachRowsUpd_id] at hid
      rw [breachRowsUpd_notified_sendfail env _ e g hg hw]
      exact h e he hid

lemma breachRowUpd_notified_mono_nogroup (env : Env) (s : BreachView) (e : SlaRow)
    (hg : env.sdrGroup = none) (h : e.notified = true) :
    (breachRowUpd env s e).notified = true := by
  cases hn : s.notified <;> by_cases hid : e.id = s.id <;>
    simp [breachRowUpd, hn, hg, hid, h]

lemma breachRowsUpd_notified_mono_nogroup (env : Env) (snap : List BreachView) (e : SlaRow)
    (hg : env.sdrGroup = none) (h : e.notified = true) :
    (breachRowsUpd env snap e).notified = true := by
  induction snap generalizing e with
  | nil => exact h
  | cons s rest ih =>
      rw [breachRowsUpd, List.foldl_cons]
      exact ih (breachRowUpd env s e) (breachRowUpd_notified_mono_nogroup env s e hg h)

lemma breachRowsUpd_notified_set_nogroup (env : Env) (snap : List BreachView) (e : SlaRow)
    (hg : env.sdrGroup = none)
    (h : ∃ s ∈ snap, e.id = s.id ∧ s.notified = false) :
    (breachRowsUpd env snap e).notified = true := by
  induction snap generalizing e with
  | nil => obtain ⟨s, hs, _⟩ := h; cases hs
  | cons s rest ih =>
      rw [breachRowsUpd, List.foldl_cons]
      obtain ⟨s', hs', hid, hnot⟩ := h
      rcases List.mem_cons.1 hs' with rfl | hmem
      · refine breachRowsUpd_notified_mono_nogroup env rest _ hg ?_
        simp [breachRowUpd, hid, hnot, hg]
      · exact ih (breachRowUpd env s e) ⟨s', hmem, by rw [breachRowUpd_id]; exact hid, hnot⟩

lemma notified_true_runs_nogroup (env : Env) (hg : env.sdrGroup = none) :
    ∀ (ts : List Nat) (st : St) (rid : Nat),
      (∀ e ∈ st.sla_events, e.id = rid → e.notified = true) →
      ∀ e ∈ (checkRuns env ts st).sla_events, e.id = rid → e.notified = true := by
  intro ts
  induction ts with
  | nil => intro st rid h; exact h
  | cons t ts ih =>
      intro st rid h
      refine ih _ rid ?_
      intro e' he' hid
      rw [checkSla_sla_events] at he'
      obtain ⟨e, he, rfl⟩ := List.mem_map.1 he'
      rw [breachRowsUpd_id] at hid
      exact breachRowsUpd_notified_mono_nogroup env _ e hg (h e he hid)

lemma breachEmit_nogroup (env : Env) (s : BreachView) (hg : env.sdrGroup = none) :
    breachEmit env s = [] := by
  cases hn : s.notified <;> simp [breachEmit, hn, hg]

lemma breachAttempts_nogroup (env : Env) (hg : env.sdrGroup = none) :
    ∀ (ts : List Nat) (st : St) (rid : Nat), breachAttemptsFor env ts st rid = 0 := by
  intro ts
  induction ts with
  | nil => intro st rid; rfl
  | cons t ts ih =>
      intro st rid
      simp only [breachAttemptsFor]
      rw [checkSla_out, ih]
      have hflat : (((slaBreachSelect t st).map (breachEmit env)).flatten) = [] := by
        rw [List.map_congr_left fun s _ => breachEmit_nogroup env s hg]
        simp
      rw [hflat]
      rfl

/-- C9 counterexample: the breach update is keyed on the row id only and
the notify decision reads the cycle's own stale snapshot, so two
overlapping poll cycles — both selecting before either processes — send
the breach notification twice for the same CommitmentEvent: double-firing
is not structurally prevented. -/
theorem overlapped_breach_double_fire_counterexample :
    countAction (Action.waGroupBreach 4) (overlappedBreachCycles wEnvGroup 2000 wStDue).2 = 2 ∧
    ((overlappedBreachCycles wEnvGroup 2000 wStDue).1).sla_events =
      [{ wOpenSla 4 1000 with breached := true, notified := true }] := by
  refine ⟨by decide, by decide⟩

/-- C9 amended: `checkSlaBreaches` performs its updates conditioned only on
the row id (not on the pre-breach state) and decides the notification from
the snapshot taken at select time; consequently, for any open commitment
past deadline, two overlapping cycles whose selects both precede processing
each send the breach notification once — two sends in total. -/
theorem overlapped_breach_double_fire_amended :
    ∀ (env : Env) (now : Nat) (l : LeadRow) (r : SlaRow) (g : String) (st : St),
      env.sdrGroup = some g → env.waSendOk = true →
      st.leads = [l] → st.sla_events = [r] →
      r.lead_id = l.id → r.completed_at = none → r.breached = false → r.notified = false →
      r.deadline_at < now →
      countAction (Action.waGroupBreach r.id) (overlappedBreachCycles env now st).2 = 2 := by
  intro env now l r g st hg hw hl hs hrl hc hb hn hd
  have hsel : slaBreachSelect now st =
      [⟨r.id, l.id, r.sla_type, r.deadline_at, false, l.name, l.phone⟩] := by
    simp [slaBreachSelect, hs, hl, hc, hb, hd, hrl, hn]
  have hout : (overlappedBreachCycles env now st).2 =
      (((slaBreachSelect now st).map (breachEmit env)).flatten) ++
        (((slaBreachSelect now st).map (breachEmit env)).flatten) := by
    rw [overlappedBreachCycles]
    rw [breach_fold_out, breach_fold_out]
    simp
  rw [countAction, hout, hsel]
  simp [breachEmit, hg]

/-- C9 amended witness: the two overlapped cycles on a concrete store. -/
theorem overlapped_breach_double_fire_amended_witness :
    countAction (Action.waGroupBreach 4) (overlappedBreachCycles wEnvGroup 2000 wStDue).2 = 2 :=
  overlapped_breach_double_fire_amended wEnvGroup 2000 wLead (wOpenSla 4 1000) "sdr" wStDue
    rfl rfl rfl rfl rfl rfl rfl rfl (by decide)

/-- C10 counterexample: with no notification group configured the breach
run sets `notified = true` anyway (the notified-update sits outside the
`if (groupId)` guard), with zero send attempts — the row does not remain
`notified = false` as the claim states. -/
theorem checkBreaches_no_group_counterexample :
    (((checkSlaBreaches {} 2000 wStDue).1).sla_events.map fun e => (e.breached, e.notified)) =
      [(true, true)] ∧
    (checkSlaBreaches {} 2000 wStDue).2.1 = [] := by
  refine ⟨by decide, by decide⟩

/-- C10 amended: across sequential runs the breach notification is
attempted at most once per CommitmentEvent; when the group is configured
and the single send fails, the row ends breached with `notified = false`
forever and is never retried (exactly one attempt ever); when no group is
configured, no send is ever attempted but the breach run still sets
`notified = true`. -/
theorem checkBreaches_notify_at_most_once_amended :
    (∀ (env : Env) (ts : List Nat) (st : St) (rid : Nat),
      distinctIds st.sla_events → breachAttemptsFor env ts st rid ≤ 1) ∧
    (∀ (env : Env) (g : String) (t1 : Nat) (ts : List Nat) (st : St) (r : SlaRow),
      env.sdrGroup = some g → env.waSendOk = false →
      distinctIds st.sla_events → r ∈ st.sla_events → r.completed_at = none →
      r.breached = false → r.notified = false → (∃ l ∈ st.leads, l.id = r.lead_id) →
      r.deadline_at < t1 →
      breachAttemptsFor env (t1 :: ts) st r.id = 1 ∧
      (∀ e ∈ (checkRuns env (t1 :: ts) st).sla_events, e.id = r.id →
        e.breached = true ∧ e.notified = false)) ∧
    (∀ (env : Env) (t1 : Nat) (ts : List Nat) (st : St) (r : SlaRow),
      env.sdrGroup = none →
      r ∈ st.sla_events → r.completed_at = none → r.breached = false → r.notified = false →
      (∃ l ∈ st.leads, l.id = r.lead_id) → r.deadline_at < t1 →
      breachAttemptsFor env (t1 :: ts) st r.id = 0 ∧
      (∀ e ∈ (checkRuns env (t1 :: ts) st).sla_events, e.id = r.id →
        e.breached = true ∧ e.notified = true)) := by
  refine ⟨?_, ?_, ?_⟩
  · intro env ts st rid h
    exact Nat.le_trans (breachAttempts_le env ts st rid h) (timesSelected_le_one env ts st rid)
  · intro env g t1 ts st r hg hw hdist hr hc hb hn hl hd
    obtain ⟨v, hv, hvid, hvnot⟩ := select_mem_of t1 st r hr hc hb hd hl
    have hsel : r.id ∈ (slaBreachSelect t1 st).map (·.id) :=
      List.mem_map.2 ⟨v, hv, hvid⟩
    constructor
    · simp only [breachAttemptsFor]
      rw [checkSla_out,
        emit_count_eq_one env r.id g hg _ (select_ids_pairwise t1 st hdist)
          ⟨v, hv, hvid, by rw [hvnot, hn]⟩,
        breachAttempts_zero env ts _ r.id (allBreached_post_of_selected env t1 st r.id hsel)]
    · intro e he hid
      have hbr : e.breached = true := by
        have hstep : checkRuns env (t1 :: ts) st =
            checkRuns env ts (checkSlaBreaches env t1 st).1 := rfl
        rw [hstep] at he
        exact allBreached_runs env ts _ r.id
          (allBreached_post_of_selected env t1 st r.id hsel) e he hid
      refine ⟨hbr, ?_⟩
      refine notified_false_runs_sendfail env g hg hw (t1 :: ts) st r.id ?_ e he hid
      intro e' he' hid'
      rw [distinctIds_unique st.sla_events hdist e' r he' hr hid']
      exact hn
  · intro env t1 ts st r hg hr hc hb hn hl hd
    obtain ⟨v, hv, hvid, hvnot⟩ := select_mem_of t1 st r hr hc hb hd hl
    have hsel : r.id ∈ (slaBreachSelect t1 st).map (·.id) :=
      List.mem_map.2 ⟨v, hv, hvid⟩
    refine ⟨breachAttempts_nogroup env hg (t1 :: ts) st r.id, ?_⟩
    intro e he hid
    have hstep : checkRuns env (t1 :: ts) st =
        checkRuns env ts (checkSlaBreaches env t1 st).1 := rfl
    rw [hstep] at he
    refine ⟨allBreached_runs env ts _ r.id
      (allBreached_post_of_selected env t1 st r.id hsel) e he hid, ?_⟩
    refine notified_true_runs_nogroup env hg ts _ r.id ?_ e he hid
    intro e' he' hid'
    rw [checkSla_sla_events] at he'
    obtain ⟨e0, he0, rfl⟩ := List.mem_map.1 he'
    rw [breachRowsUpd_id] at hid'
    exact breachRowsUpd_notified_set_nogroup env _ e0 hg
      ⟨v, hv, by rw [hid', ← hvid], by rw [hvnot, hn]⟩

/-- C10 amended witness: the send-failure scenario on a concrete store
attempts the notification exactly once across two polls. -/
theorem checkBreaches_notify_at_most_once_amended_witness :
    breachAttemptsFor wEnvSendFail [2000, 3000] wStDue 4 = 1 :=
  (checkBreaches_notify_at_most_once_amended.2.1 wEnvSendFail "sdr" 2000 [3000] wStDue
    (wOpenSla 4 1000) rfl rfl (by simp [wStDue, distinctIds]) (by decide) rfl rfl rfl
    ⟨wLead, by decide, rfl⟩ (by decide)).1

lemma escStep_noop (env : Env) (now : Nat) (st : St) (out : List Action) (cnt : Nat)
    (w : EscView)
    (hS : ((escalationRecordsFor st w).any fun a => a.type == "escalation_slack") = true)
    (hC : ((escalationRecordsFor st w).any fun a => a.type == "escalation_critical") = true) :
    escStep env now (st, out, cnt) w = (st, out, cnt) := by
  simp [escStep, escCritical, hS, hC]

lemma escFold_noop (env : Env) (now : Nat) (st : St) :
    ∀ (ws : List EscView) (out : List Action) (cnt : Nat),
      (∀ w ∈ ws,
        ((escalationRecordsFor st w).any fun a => a.type == "escalation_slack") = true ∧
        ((escalationRecordsFor st w).any fun a => a.type == "escalation_critical") = true) →
      ws.foldl (escStep env now) (st, out, cnt) = (st, out, cnt) := by
  intro ws
  induction ws with
  | nil => intro out cnt _; rfl
  | cons w ws ih =>
      intro out cnt h
      rw [List.foldl_cons,
        escStep_noop env now st out cnt w (h w (by simp)).1 (h w (by simp)).2]
      exact ih out cnt fun w' hw' => h w' (by simp [hw'])

lemma slaCycle_stable (env : Env) (t : Nat) (st : St)
    (h1 : ∀ e ∈ st.sla_events, e.breached = true)
    (h2 : ∀ w ∈ escalationSelect st,
      ((escalationRecordsFor st w).any fun a => a.type == "escalation_slack") = true ∧
      ((escalationRecordsFor st w).any fun a => a.type == "escalation_critical") = true) :
    slaCycle env t st = (st, []) := by
  have hsel : slaBreachSelect t st = [] := by
    rw [slaBreachSelect, List.filterMap_eq_nil_iff]
    intro e he
    rw [if_neg]
    intro hc
    rw [h1 e he] at hc
    exact absurd hc.2.1 (by simp)
  have hbr : checkSlaBreaches env t st = (st, [], 0) := by
    simp [checkSlaBreaches, hsel]
  have hesc : runEscalationCheck env t st = (st, [], 0) :=
    escFold_noop env t st (escalationSelect st) [] 0 h2
  simp [slaCycle, hbr, hesc]

lemma slaCycles_stable (env : Env) :
    ∀ (ts : List Nat) (st : St),
      (∀ e ∈ st.sla_events, e.breached = true) →
      (∀ w ∈ escalationSelect st,
        ((escalationRecordsFor st w).any fun a => a.type == "escalation_slack") = true ∧
        ((escalationRecordsFor st w).any fun a => a.type == "escalation_critical") = true) →
      slaCycles env ts st = (st, []) := by
  intro ts
  induction ts with
  | nil => intro st _ _; rfl
  | cons t ts ih =>
      intro st h1 h2
      simp only [slaCycles]
      rw [slaCycle_stable env t st h1 h2, ih st h1 h2]
      simp

/-- C3: for a commitment stuck uncompleted and at least 40 minutes past its
deadline, iterating `checkSlaBreaches` followed by `runEscalationCheck` any
number of times (the first cycle at or after the 40-minute mark, later
cycles at arbitrary clock values) produces exactly one level-1 Slack
warning and exactly one level-2 critical escalation for that commitment —
the first cycle fires both missing levels (the thresholds are checked
cumulatively every cycle), and every later cycle fires nothing. -/
theorem escalation_levels_fire_exactly_once :
    ∀ (env : Env) (l : LeadRow) (r : SlaRow) (t1 : Nat) (ts : List Nat) (st : St),
      env.slackOk = true → env.waSendOk = true →
      st.leads = [l] → st.sla_events = [r] → st.activities = [] →
      r.lead_id = l.id → r.completed_at = none → r.breached = false → r.notified = false →
      r.deadline_at + 40 * 60000 ≤ t1 →
      countAction (Action.slackWarn r.id) (slaCycles env (t1 :: ts) st).2 = 1 ∧
      countAction (Action.slackCritical r.id) (slaCycles env (t1 :: ts) st).2 = 1 := by
  intro env l r t1 ts st hok hwa hl hs ha hrl hc hb hn hd
  have hdl : r.deadline_at < t1 := by omega
  have hmin15 : 15 ≤ (t1 - r.deadline_at) / 60000 := by
    rw [Nat.le_div_iff_mul_le (by norm_num)]
    omega
  have hmin30 : 30 ≤ (t1 - r.deadline_at) / 60000 := by
    rw [Nat.le_div_iff_mul_le (by norm_num)]
    omega
  have hsel : slaBreachSelect t1 st =
      [⟨r.id, l.id, r.sla_type, r.deadline_at, false, l.name, l.phone⟩] := by
    simp [slaBreachSelect, hs, hl, hc, hb, hdl, hrl, hn]
  have hbr : checkSlaBreaches env t1 st =
      (slaSingleSt st { r with breached := true, notified := true } [⟨l.id, "sla_breach", none⟩],
       breachEmit env ⟨r.id, l.id, r.sla_type, r.deadline_at, false, l.name, l.phone⟩, 1) := by
    rcases hg : env.sdrGroup with _ | g <;>
      simp [checkSlaBreaches, hsel, slaBreachStep, setBreached, setNotified, breachEmit,
        slaSingleSt, hg, hwa, hs, ha]
  have hsel2 : escalationSelect
      (slaSingleSt st { r with breached := true, notified := true }
        [⟨l.id, "sla_breach", none⟩]) =
      [⟨r.id, l.id, r.sla_type, r.deadline_at, true, l.name, l.phone,
        l.estimated_ticket⟩] := by
    simp [escalationSelect, slaSingleSt, hl, hrl, hc]
  have hesc : runEscalationCheck env t1
      (slaSingleSt st { r with breached := true, notified := true }
        [⟨l.id, "sla_breach", none⟩]) =
      (slaSingleSt st { r with breached := true, notified := true }
        [⟨l.id, "sla_breach", none⟩, ⟨l.id, "escalation_slack", some r.id⟩,
          ⟨l.id, "escalation_critical", some r.id⟩],
       [Action.slackWarn r.id, Action.slackCritical r.id] ++
         (match env.opsGroup with
          | some _ => [Action.waGroupCritical r.id]
          | none => []), 2) := by
    rcases ho : env.opsGroup with _ | og <;>
      simp only [runEscalationCheck] <;> rw [hsel2] <;>
      simp [escStep, escCritical, escalationRecordsFor, slaSingleSt, hmin15, hmin30,
        hok, hwa, ho]
  have hstable : slaCycles env ts
      (slaSingleSt st { r with breached := true, notified := true }
        [⟨l.id, "sla_breach", none⟩, ⟨l.id, "escalation_slack", some r.id⟩,
          ⟨l.id, "escalation_critical", some r.id⟩]) =
      ((slaSingleSt st { r with breached := true, notified := true }
        [⟨l.id, "sla_breach", none⟩, ⟨l.id, "escalation_slack", some r.id⟩,
          ⟨l.id, "escalation_critical", some r.id⟩]), []) := by
    refine slaCycles_stable env ts _ ?_ ?_
    · intro e he
      simp [slaSingleSt] at he
      rw [he]
    · intro w hw
      have hsel3 : escalationSelect
          (slaSingleSt st { r with breached := true, notified := true }
            [⟨l.id, "sla_breach", none⟩, ⟨l.id, "escalation_slack", some r.id⟩,
              ⟨l.id, "escalation_critical", some r.id⟩]) =
          [⟨r.id, l.id, r.sla_type, r.deadline_at, true, l.name, l.phone,
            l.estimated_ticket⟩] := by
        simp [escalationSelect, slaSingleSt, hl, hrl, hc]
      rw [hsel3] at hw
      simp at hw
      subst hw
      constructor <;> simp [escalationRecordsFor, slaSingleSt]
  have hcycle : slaCycle env t1 st =
      ((slaSingleSt st { r with breached := true, notified := true }
        [⟨l.id, "sla_breach", none⟩, ⟨l.id, "escalation_slack", some r.id⟩,
          ⟨l.id, "escalation_critical", some r.id⟩]),
       breachEmit env ⟨r.id, l.id, r.sla_type, r.deadline_at, false, l.name, l.phone⟩ ++
         ([Action.slackWarn r.id, Action.slackCritical r.id] ++
           (match env.opsGroup with
            | some _ => [Action.waGroupCritical r.id]
            | none => []))) := by
    simp [slaCycle, hbr, hesc]
  have hall : (slaCycles env (t1 :: ts) st).2 =
      breachEmit env ⟨r.id, l.id, r.sla_type, r.deadline_at, false, l.name, l.phone⟩ ++
        ([Action.slackWarn r.id, Action.slackCritical r.id] ++
          (match env.opsGroup with
           | some _ => [Action.waGroupCritical r.id]
           | none => [])) := by
    simp only [slaCycles]
    rw [hcycle]
    simp only []
    rw [hstable]
    simp
  rw [hall]
  constructor <;>
    rcases hg : env.sdrGroup with _ | g <;> rcases ho : env.opsGroup with _ | og <;>
      simp [countAction, breachEmit, hg, ho]

/-- C3 witness: a commitment 40 minutes past deadline run through two
cycles fires each escalation level exactly once. -/
theorem escalation_levels_fire_exactly_once_witness :
    countAction (Action.slackWarn 4) (slaCycles c3Env [2401000, 9999999] wStDue).2 = 1 ∧
    countAction (Action.slackCritical 4) (slaCycles c3Env [2401000, 9999999] wStDue).2 = 1 :=
  escalation_levels_fire_exactly_once c3Env wLead (wOpenSla 4 1000) 2401000 [9999999] wStDue
    rfl rfl rfl rfl rfl rfl rfl rfl rfl (by decide)

lemma find_mkSteps (sid : Nat) :
    ∀ (specs : List StepSpec) (ord d : Nat),
      ((mkSteps sid ord specs).find? fun s =>
          decide (s.sequence_id = sid ∧ s.step_order = ord + d)) =
        (specs.drop d).head?.map
          (fun s => (⟨sid, ord + d, s.delay, "whatsapp", s.template⟩ : StepRow)) := by
  intro specs
  induction specs with
  | nil => intro ord d; simp [mkSteps]
  | cons s rest ih =>
      intro ord d
      cases d with
      | zero => simp [mkSteps]
      | succ d' =>
          rw [mkSteps, List.find?_cons_of_neg _ (by simp)]
          have h := ih (ord + 1) d'
          rw [show ord + 1 + d' = ord + (d' + 1) by omega] at h
          rw [h]
          rfl

lemma dueTimes_length : ∀ (due : Nat) (specs : List StepSpec),
    (dueTimes due specs).length = specs.length := by
  intro due specs
  induction specs generalizing due with
  | nil => rfl
  | cons s rest ih =>
      cases rest with
      | nil => rfl
      | cons s2 rest' => simp [dueTimes, ih]

lemma fupSelect_single (lead : LeadRow) (steps : List StepRow) (eid sid k due t : Nat)
    (acts : List ActivityRow) (ht : due ≤ t) :
    fupSelect t (fupSt lead steps (activeExec eid lead.id sid k due) acts) =
      [⟨eid, sid, k, lead.id, lead.name, lead.phone_normalized, lead.location,
        lead.project_type, lead.funnel⟩] := by
  simp [fupSelect, fupSt, activeExec, fupDue, ht]

lemma processDue_mid (env : Env) (henv : env.waTextOk = true) (lead : LeadRow)
    (sid eid k due : Nat) (specs : List StepSpec) (s1 s2 : StepSpec) (rest : List StepSpec)
    (acts : List ActivityRow)
    (hdrop : specs.drop k = s1 :: s2 :: rest) :
    processDueFollowUps env due
        (fupSt lead (mkSteps sid 1 specs) (activeExec eid lead.id sid k due) acts) =
      (fupSt lead (mkSteps sid 1 specs)
        (activeExec eid lead.id sid (k + 1) (due + s2.delay * 60000))
        (acts ++ [⟨lead.id, "follow_up", none⟩]),
       [Action.waText lead.phone_normalized], 1) := by
  have hfind1 := find_mkSteps sid specs 1 k
  rw [show 1 + k = k + 1 by omega, hdrop] at hfind1
  have hfind2 := find_mkSteps sid specs 1 (k + 1)
  rw [show 1 + (k + 1) = k + 1 + 1 by omega, ← List.tail_drop, hdrop] at hfind2
  simp only [List.head?_cons, Option.map_some', List.tail_cons] at hfind1 hfind2
  simp only [processDueFollowUps,
    fupSelect_single lead (mkSteps sid 1 specs) eid sid k due due acts (Nat.le_refl due),
    List.foldl_cons, List.foldl_nil, fupStep]
  rw [show findStep (fupSt lead (mkSteps sid 1 specs) (activeExec eid lead.id sid k due) acts)
      sid (k + 1) =
    some (⟨sid, k + 1, s1.delay, "whatsapp", s1.template⟩ : StepRow) from hfind1]
  simp only [henv]
  simp only [Bool.decide_and] at hfind2
  simp [fupSt, activeExec, updateExec, findStep, hfind2]

lemma processDue_last (env : Env) (henv : env.waTextOk = true) (lead : LeadRow)
    (sid eid k due : Nat) (specs : List StepSpec) (s1 : StepSpec)
    (acts : List ActivityRow)
    (hdrop : specs.drop k = [s1]) :
    processDueFollowUps env due
        (fupSt lead (mkSteps sid 1 specs) (activeExec eid lead.id sid k due) acts) =
      (fupSt lead (mkSteps sid 1 specs) (doneExec eid lead.id sid (k + 1) due)
        (acts ++ [⟨lead.id, "follow_up", none⟩]),
       [Action.waText lead.phone_normalized], 1) := by
  have hfind1 := find_mkSteps sid specs 1 k
  rw [show 1 + k = k + 1 by omega, hdrop] at hfind1
  have hfind2 := find_mkSteps sid specs 1 (k + 1)
  rw [show 1 + (k + 1) = k + 1 + 1 by omega, ← List.tail_drop, hdrop] at hfind2
  simp only [List.head?_cons, Option.map_some', List.tail_cons, List.head?_nil,
    Option.map_none'] at hfind1 hfind2
  simp only [processDueFollowUps,
    fupSelect_single lead (mkSteps sid 1 specs) eid sid k due due acts (Nat.le_refl due),
    List.foldl_cons, List.foldl_nil, fupStep]
  rw [show findStep (fupSt lead (mkSteps sid 1 specs) (activeExec eid lead.id sid k due) acts)
      sid (k + 1) =
    some (⟨sid, k + 1, s1.delay, "whatsapp", s1.template⟩ : StepRow) from hfind1]
  simp only [henv]
  simp only [Bool.decide_and] at hfind2
  simp [fupSt, activeExec, doneExec, updateExec, findStep, hfind2]

lemma runFup_completes_from (env : Env) (henv : env.waTextOk = true) (lead : LeadRow)
    (sid eid : Nat) (specs : List StepSpec) :
    ∀ (rest : List StepSpec) (k due : Nat) (acts : List ActivityRow),
      specs.drop k = rest → rest ≠ [] →
      ∃ (acts' : List ActivityRow) (c : Nat),
        runFupCycles env (dueTimes due rest)
          (fupSt lead (mkSteps sid 1 specs) (activeExec eid lead.id sid k due) acts) =
        (fupSt lead (mkSteps sid 1 specs) (doneExec eid lead.id sid specs.length c) acts',
         List.replicate rest.length (Action.waText lead.phone_normalized)) := by
  intro rest
  induction rest with
  | nil => intro k due acts _ hne; exact absurd rfl hne
  | cons s1 rest' ih =>
      intro k due acts hdrop _
      cases rest' with
      | nil =>
          refine ⟨acts ++ [⟨lead.id, "follow_up", none⟩], due, ?_⟩
          have hk : k + 1 = specs.length := by
            have hlen := congrArg List.length hdrop
            simp [List.length_drop] at hlen
            omega
          simp only [dueTimes, runFupCycles]
          rw [processDue_last env henv lead sid eid k due specs s1 acts hdrop]
          simp [runFupCycles, hk]
      | cons s2 rest'' =>
          have hdrop2 : specs.drop (k + 1) = s2 :: rest'' := by
            rw [← List.tail_drop, hdrop]
            rfl
          simp only [dueTimes, runFupCycles]
          rw [processDue_mid env henv lead sid eid k due specs s1 s2 rest'' acts hdrop]
          obtain ⟨acts', c, hrec⟩ := ih (k + 1) (due + s2.delay * 60000)
            (acts ++ [⟨lead.id, "follow_up", none⟩]) hdrop2 (by simp)
          refine ⟨acts', c, ?_⟩
          simp only []
          rw [hrec]
          simp [List.replicate_succ]

/-- C4: an active SequenceExecution at step index 0 over a sequence with N
steps, run through `processDue` once per step at the step's due time, ends
`completed` with `current_step = N` after exactly N cycles, having
dispatched exactly N WhatsApp messages; the cycle sending the last step
marks the execution completed immediately. -/
theorem sequence_exhaustion_completes :
    ∀ (env : Env) (lead : LeadRow) (sid eid r0 : Nat) (specs : List StepSpec),
      specs ≠ [] → env.waTextOk = true →
      (dueTimes r0 specs).length = specs.length ∧
      ∃ (acts : List ActivityRow) (c : Nat),
        runFupCycles env (dueTimes r0 specs)
          (fupSt lead (mkSteps sid 1 specs) (activeExec eid lead.id sid 0 r0) []) =
        (fupSt lead (mkSteps sid 1 specs) (doneExec eid lead.id sid specs.length c) acts,
         List.replicate specs.length (Action.waText lead.phone_normalized)) := by
  intro env lead sid eid r0 specs hne henv
  exact ⟨dueTimes_length r0 specs,
    runFup_completes_from env henv lead sid eid specs specs 0 r0 [] (by simp) hne⟩

/-- C4 witness: a concrete two-step sequence run to exhaustion. -/
theorem sequence_exhaustion_completes_witness :
    (dueTimes 100 c4Specs).length = c4Specs.length ∧
    ∃ (acts : List ActivityRow) (c : Nat),
      runFupCycles {} (dueTimes 100 c4Specs)
        (fupSt wLead (mkSteps 5 1 c4Specs) (activeExec 21 wLead.id 5 0 100) []) =
      (fupSt wLead (mkSteps 5 1 c4Specs) (doneExec 21 wLead.id 5 c4Specs.length c) acts,
       List.replicate c4Specs.length (Action.waText wLead.phone_normalized)) :=
  sequence_exhaustion_completes {} wLead 5 21 100 c4Specs (by decide) rfl

end Parket
